import Mathlib

set_option maxHeartbeats 1000000

/- Verification of the distributed file system (coordinator S1, storage
   nodes S2/S3/S4, client s25client).  Byte strings are modelled as
   `List Nat`; the multi-byte integers of the wire protocol are modelled
   as little-endian two's-complement byte sequences, matching the native
   x86 representation the C code sends with `send(sock, &n, sizeof n, 0)`.
   Path/name length fields are 32-bit `int`, file sizes 64-bit `long`. -/

/-- ASCII byte list of a string literal. -/
def str (s : String) : List Nat := s.data.map Char.toNat

/-- Boolean starts-with test on byte lists (models `strncmp(a, p, strlen p) == 0`). -/
def leadsWith : List Nat → List Nat → Bool
  | [], _ => true
  | _ :: _, [] => false
  | p :: ps, x :: xs => p == x && leadsWith ps xs

/-- Boolean substring test on byte lists (models `strstr(l, pat) != NULL`). -/
def hasSub (pat : List Nat) : List Nat → Bool
  | [] => leadsWith pat []
  | x :: xs => leadsWith pat (x :: xs) || hasSub pat xs

/-- Value of a little-endian byte list. -/
def leToNat : List Nat → Nat
  | [] => 0
  | b :: bs => b + 256 * leToNat bs

/-- Little-endian digits of `n`, exactly `w` bytes. -/
def natToLE : Nat → Nat → List Nat
  | 0, _ => []
  | w + 1, n => n % 256 :: natToLE w (n / 256)

theorem natToLE_length (w n : Nat) : (natToLE w n).length = w := by
  induction w generalizing n with
  | zero => rfl
  | succ w ih => simp [natToLE, ih]

theorem leToNat_natToLE (w n : Nat) : leToNat (natToLE w n) = n % 256 ^ w := by
  induction w generalizing n with
  | zero => simp [natToLE, leToNat, Nat.mod_one]
  | succ w ih =>
    simp only [natToLE, leToNat, ih]
    rw [Nat.pow_succ']
    rw [Nat.mod_mul]

/-- Two's-complement little-endian encoding of an integer in `w` bytes. -/
def intToLE (w : Nat) (n : Int) : List Nat := natToLE w (n % ((2 : Int) ^ (8 * w))).toNat

/-- Signed interpretation of a `w`-byte little-endian byte list. -/
def leToInt (w : Nat) (l : List Nat) : Int :=
  let v := leToNat l
  if v < 2 ^ (8 * w - 1) then (v : Int) else (v : Int) - (2 : Int) ^ (8 * w)

theorem intToLE_length (w : Nat) (n : Int) : (intToLE w n).length = w := by
  simp [intToLE, natToLE_length]

theorem leToInt_intToLE (w : Nat) (n : Int) (hw : 1 ≤ w)
    (h0 : 0 ≤ n) (h1 : n < 2 ^ (8 * w - 1)) :
    leToInt w (intToLE w n) = n := by
  have hle : (2 : Int) ^ (8 * w - 1) ≤ 2 ^ (8 * w) := by
    apply pow_le_pow_right₀ (by norm_num)
    omega
  have hmod : n % ((2 : Int) ^ (8 * w)) = n := Int.emod_eq_of_lt h0 (lt_of_lt_of_le h1 hle)
  have hpow : (256 : Nat) ^ w = 2 ^ (8 * w) := by
    rw [show (256 : Nat) = 2 ^ 8 by norm_num, ← pow_mul]
  have hlt : n.toNat < 256 ^ w := by
    rw [hpow]
    have h2 : n < ((2 ^ (8 * w) : Nat) : Int) := by
      have h3 := lt_of_lt_of_le h1 hle
      exact_mod_cast h3
    omega
  have hval : leToNat (natToLE w n.toNat) = n.toNat := by
    rw [leToNat_natToLE, Nat.mod_eq_of_lt hlt]
  have hsm : n.toNat < 2 ^ (8 * w - 1) := by
    have : ((2 : Int) ^ (8 * w - 1)) = ((2 ^ (8 * w - 1) : Nat) : Int) := by push_cast; ring
    rw [this] at h1
    omega
  simp only [leToInt, intToLE, hmod, hval, if_pos hsm]
  omega

/-- 32-bit little-endian field (a C `int` on the wire). -/
def le32 (n : Int) : List Nat := intToLE 4 n

/-- 64-bit little-endian field (a C `long` on the wire). -/
def le64 (n : Int) : List Nat := intToLE 8 n

theorem le32_length (n : Int) : (le32 n).length = 4 := intToLE_length 4 n

theorem le64_length (n : Int) : (le64 n).length = 8 := intToLE_length 8 n

theorem leToInt_le32 (n : Int) (h0 : 0 ≤ n) (h1 : n < 2 ^ 31) :
    leToInt 4 (le32 n) = n := leToInt_intToLE 4 n (by norm_num) h0 h1

theorem leToInt_le64 (n : Int) (h0 : 0 ≤ n) (h1 : n < 2 ^ 63) :
    leToInt 8 (le64 n) = n := leToInt_intToLE 8 n (by norm_num) h0 h1

/- List slicing helpers used throughout the decode proofs. -/

theorem take_app_left {α : Type} (a b : List α) (n : Nat) (h : n ≤ a.length) :
    (a ++ b).take n = a.take n := by
  rw [List.take_append_eq_append_take]
  have : n - a.length = 0 := by omega
  simp [this]

theorem drop_app_left {α : Type} (a b : List α) (n : Nat) (h : n ≤ a.length) :
    (a ++ b).drop n = a.drop n ++ b := by
  rw [List.drop_append_eq_append_drop]
  have : n - a.length = 0 := by omega
  simp [this]

theorem take_len_app {α : Type} (a b : List α) : (a ++ b).take a.length = a := by
  rw [take_app_left a b a.length (le_refl _), List.take_length]

theorem drop_len_app {α : Type} (a b : List α) : (a ++ b).drop a.length = b := by
  rw [drop_app_left a b a.length (le_refl _), List.drop_length, List.nil_append]

theorem take_app_full {α : Type} (a b : List α) (n : Nat) (h : a.length ≤ n) :
    (a ++ b).take n = a ++ b.take (n - a.length) := by
  rw [List.take_append_eq_append_take, List.take_of_length_le h]

theorem drop_app_full {α : Type} (a b : List α) (n : Nat) (h : a.length ≤ n) :
    (a ++ b).drop n = b.drop (n - a.length) := by
  rw [List.drop_append_eq_append_drop]
  have : a.drop n = [] := List.drop_eq_nil_of_le h
  simp [this]

theorem glue_take_drop {α : Type} (m : List α) (j k : Nat) (h : j ≤ k) :
    (m.take k).drop j ++ m.drop k = m.drop j := by
  rw [List.drop_take]
  have hk : m.drop k = (m.drop j).drop (k - j) := by
    rw [List.drop_drop]
    congr 1
    omega
  rw [hk]
  exact List.take_append_drop (k - j) (m.drop j)

theorem take_min {α : Type} (l : List α) (n : Nat) : l.take n = l.take (min n l.length) := by
  rcases Nat.le_total n l.length with h | h
  · rw [Nat.min_eq_left h]
  · rw [Nat.min_eq_right h, List.take_length, List.take_of_length_le h]

theorem drop_min {α : Type} (l : List α) (n : Nat) : l.drop n = l.drop (min n l.length) := by
  rcases Nat.le_total n l.length with h | h
  · rw [Nat.min_eq_left h]
  · rw [Nat.min_eq_right h, List.drop_length, List.drop_eq_nil_of_le h]

/- ===== Upload wire format (S1.c `send_to_server`, lines 651-782) =====
   S1 transmits, in order: 4-byte destination-path length, the path bytes,
   4-byte file-name length, the name bytes, 8-byte file size, then the
   payload in chunks.  On a stream socket this is one concatenated byte
   sequence. -/

/-- Byte stream produced by `send_to_server` for destination `dest`, file
name `name`, declared size `sz` and payload `payload` (the code always
declares `sz = payload.length`; the general form is needed to reason about
truncated transfers). -/
def uploadFrame (dest name : List Nat) (sz : Int) (payload : List Nat) : List Nat :=
  le32 dest.length ++ dest ++ le32 name.length ++ name ++ le64 sz ++ payload

/-- Stream sent by `send_to_server (filepath) (dest_path) port`: the declared
size is exactly the payload length. -/
def send_to_server (dest name content : List Nat) : List Nat :=
  uploadFrame dest name content.length content

/-- Outcome of a storage node's upload handler, as observable on its disk:
`aborted` = returned before creating the target file; `stored` = file at
`dest/name` holds exactly the given bytes; `shortDeleted` = transfer fell
short of the declared size, the incomplete file was created and then
unlinked. -/
inductive UploadResult where
  | aborted : UploadResult
  | stored : List Nat → List Nat → List Nat → UploadResult
  | shortDeleted : List Nat → List Nat → UploadResult
deriving DecidableEq

/-- File left on disk by an upload outcome (`(destination, name, bytes)`). -/
def UploadResult.persisted : UploadResult → Option (List Nat × List Nat × List Nat)
  | .aborted => none
  | .stored d n c => some (d, n, c)
  | .shortDeleted _ _ => none

/- ===== S2/S3 upload decoder (part_000 `handle_upload_request`, lines
   374-582; S3.c is byte-for-byte the same logic) =====
   The handler receives the first chunk `initial` from the dispatcher's
   opportunistic read and may issue further `recv` calls, modelled by the
   remaining stream `rest`.  `read2 n rem rest` models one header-field
   read: bytes still in the initial buffer (`rem`) are consumed first and,
   if they do not suffice, the shortfall is fetched from the socket with
   `recv(..., MSG_WAITALL)`.  A stream that ends inside a header field
   makes the C code read short/uninitialized data and abort on the
   subsequent field or recv; it is modelled as `none` (abort), which
   agrees with the C on every observable outcome. -/

def read2 (n : Nat) (rem rest : List Nat) : Option (List Nat × List Nat × List Nat) :=
  if n ≤ rem.length then some (rem.take n, rem.drop n, rest)
  else if n - rem.length ≤ rest.length then
    some (rem ++ rest.take (n - rem.length), [], rest.drop (n - rem.length))
  else none

/-- Decoding stages after the destination path has been parsed: file-name
length, file name, file size, payload.  Mirrors part_000 lines 419-582. -/
def s2_tail (dest rem rest : List Nat) : UploadResult :=
  match read2 4 rem rest with
  | none => .aborted
  | some (nlB, rem2, rest2) =>
    let nameLen := leToInt 4 nlB
    if nameLen ≤ 0 ∨ 256 ≤ nameLen then .aborted
    else match read2 nameLen.toNat rem2 rest2 with
      | none => .aborted
      | some (name, rem3, rest3) =>
        match read2 8 rem3 rest3 with
        | none => .aborted
        | some (szB, rem4, rest4) =>
          let size := leToInt 8 szB
          let content := rem4 ++ rest4.take (size - (rem4.length : Int)).toNat
          if (content.length : Int) = size then .stored dest name content
          else .shortDeleted dest name

/-- `handle_upload_request(s1_socket, initial_buffer, initial_bytes)`:
parses the destination-path length and the destination path from the
initial buffer only (lines 386-414 abort if the path is not fully
present), then continues resumably via `s2_tail`. -/
def handle_upload_request (initial rest : List Nat) : UploadResult :=
  if initial.length < 4 then .aborted
  else
    let destLen := leToInt 4 (initial.take 4)
    if destLen ≤ 0 ∨ 1024 ≤ destLen then .aborted
    else
      let rem0 := initial.drop 4
      if rem0.length < destLen.toNat then .aborted
      else s2_tail (rem0.take destLen.toNat) (rem0.drop destLen.toNat) rest

/-- Upload entry point of the S2/S3 dispatcher (`handle_s1_request`,
part_000 lines 113-169): the first received chunk is routed to the upload
handler when it carries at least 4 bytes whose leading `int` is a
plausible path length (`0 < len < MAX_PATH_LEN`).  The textual command
branches (`DELETE`/`LIST`/`GET_FILE`/`CREATE_TAR`) cannot match such a
frame: a length below 1024 puts a byte `≤ 3` at offset 1, which is
neither a letter nor whitespace, so every `strncmp`/`sscanf` test fails. -/
def s2_upload_entry (initial rest : List Nat) : UploadResult :=
  if 4 ≤ initial.length then
    let destLen := leToInt 4 (initial.take 4)
    if 0 < destLen ∧ destLen < 1024 then handle_upload_request initial rest
    else .aborted
  else .aborted

/- ===== Decode lemmas for the S2/S3 upload handler ===== -/

theorem read2_spec (n : Nat) (a b rem rest : List Nat)
    (hsplit : rem ++ rest = a ++ b) (hlen : a.length = n) :
    ∃ rem2 rest2, read2 n rem rest = some (a, rem2, rest2) ∧ rem2 ++ rest2 = b := by
  subst hlen
  by_cases h : a.length ≤ rem.length
  · refine ⟨rem.drop a.length, rest, ?_, ?_⟩
    · have h1 : rem.take a.length = a := by
        have e : (rem ++ rest).take a.length = rem.take a.length :=
          take_app_left rem rest a.length h
        rw [hsplit, take_len_app] at e
        exact e.symm
      simp [read2, h, h1]
    · have e : (rem ++ rest).drop a.length = rem.drop a.length ++ rest :=
        drop_app_left rem rest a.length h
      rw [hsplit, drop_len_app] at e
      exact e.symm
  · push_neg at h
    have hl : rem.length + rest.length = a.length + b.length := by
      have e := congrArg List.length hsplit
      simp only [List.length_append] at e
      omega
    have h2 : a.length - rem.length ≤ rest.length := by omega
    refine ⟨[], rest.drop (a.length - rem.length), ?_, ?_⟩
    · have h1 : rem ++ rest.take (a.length - rem.length) = a := by
        have e : (rem ++ rest).take a.length = rem ++ rest.take (a.length - rem.length) :=
          take_app_full rem rest a.length (by omega)
        rw [hsplit, take_len_app] at e
        exact e.symm
      simp only [read2, if_neg (by omega : ¬ a.length ≤ rem.length), if_pos h2, h1]
    · have e : (rem ++ rest).drop a.length = rest.drop (a.length - rem.length) :=
        drop_app_full rem rest a.length (by omega)
      rw [hsplit, drop_len_app] at e
      simpa using e.symm

theorem s2_tail_spec (dest name payload : List Nat) (sz : Int) (rem rest : List Nat)
    (hsplit : rem ++ rest = le32 name.length ++ (name ++ (le64 sz ++ payload)))
    (hn0 : 0 < name.length) (hn1 : name.length < 256)
    (hp : (payload.length : Int) ≤ sz) (hsz0 : 0 ≤ sz) (hsz1 : sz < 2 ^ 63) :
    s2_tail dest rem rest =
      if (payload.length : Int) = sz then .stored dest name payload
      else .shortDeleted dest name := by
  have e1 : leToInt 4 (le32 (name.length : Int)) = (name.length : Int) := by
    apply leToInt_le32
    · positivity
    · have h2 : ((2 : Int) ^ 31) = 2147483648 := by norm_num
      omega
  have e2 : leToInt 8 (le64 sz) = sz := leToInt_le64 sz hsz0 hsz1
  obtain ⟨rem2, rest2, hr1, hs1⟩ :=
    read2_spec 4 (le32 (name.length : Int)) (name ++ (le64 sz ++ payload)) rem rest
      hsplit (le32_length _)
  obtain ⟨rem3, rest3, hr2, hs2⟩ :=
    read2_spec name.length name (le64 sz ++ payload) rem2 rest2 hs1 rfl
  obtain ⟨rem4, rest4, hr3, hs3⟩ :=
    read2_spec 8 (le64 sz) payload rem3 rest3 hs2 (le64_length _)
  have hcontent : rem4 ++ rest4.take (sz - (rem4.length : Int)).toNat = payload := by
    have hl := congrArg List.length hs3
    simp only [List.length_append] at hl
    have hge : rest4.length ≤ (sz - (rem4.length : Int)).toNat := by omega
    rw [List.take_of_length_le hge, hs3]
  simp only [s2_tail, hr1, e1]
  rw [if_neg (by omega : ¬ ((name.length : Int) ≤ 0 ∨ 256 ≤ (name.length : Int)))]
  simp only [Int.toNat_natCast, hr2, hr3, e2, hcontent]

theorem s2_decode (dest name payload : List Nat) (sz : Int) (k : Nat)
    (hd0 : 0 < dest.length) (hd1 : dest.length < 1024)
    (hn0 : 0 < name.length) (hn1 : name.length < 256)
    (hp : (payload.length : Int) ≤ sz) (hsz0 : 0 ≤ sz) (hsz1 : sz < 2 ^ 63)
    (hk0 : 4 + dest.length ≤ k) (hk1 : k ≤ (uploadFrame dest name sz payload).length) :
    s2_upload_entry ((uploadFrame dest name sz payload).take k)
        ((uploadFrame dest name sz payload).drop k) =
      if (payload.length : Int) = sz then .stored dest name payload
      else .shortDeleted dest name := by
  have e0 : leToInt 4 (le32 (dest.length : Int)) = (dest.length : Int) := by
    apply leToInt_le32
    · positivity
    · have h2 : ((2 : Int) ^ 31) = 2147483648 := by norm_num
      omega
  set m := uploadFrame dest name sz payload with hm
  set tailPart := le32 (name.length : Int) ++ (name ++ (le64 sz ++ payload)) with htp
  have hm2 : m = (le32 (dest.length : Int) ++ dest) ++ tailPart := by
    simp [hm, htp, uploadFrame, List.append_assoc]
  have hinitlen : (m.take k).length = k := by
    rw [List.length_take]
    omega
  have htake4 : (m.take k).take 4 = le32 (dest.length : Int) := by
    rw [List.take_take, Nat.min_eq_left (by omega : 4 ≤ k), hm2, List.append_assoc,
      take_app_left _ _ 4 (by rw [le32_length])]
    rw [show (4 : Nat) = (le32 (dest.length : Int)).length by rw [le32_length],
      List.take_length]
  have hdrop4 : (m.take k).drop 4 = (m.drop 4).take (k - 4) := List.drop_take k 4 m
  have hmdrop4 : m.drop 4 = dest ++ tailPart := by
    rw [hm2, List.append_assoc,
      show (4 : Nat) = (le32 (dest.length : Int)).length by rw [le32_length],
      drop_len_app]
  have hrem0len : ((m.take k).drop 4).length = k - 4 := by
    rw [List.length_drop, hinitlen]
  have hremtake : ((m.take k).drop 4).take dest.length = dest := by
    rw [hdrop4, List.take_take, Nat.min_eq_left (by omega : dest.length ≤ k - 4),
      hmdrop4, take_len_app]
  have hremdrop : ((m.take k).drop 4).drop dest.length = (m.take k).drop (4 + dest.length) := by
    rw [List.drop_drop, Nat.add_comm]
  have hglue : (m.take k).drop (4 + dest.length) ++ m.drop k = tailPart := by
    rw [glue_take_drop m (4 + dest.length) k hk0, hm2,
      show 4 + dest.length = (le32 (dest.length : Int) ++ dest).length by
        rw [List.length_append, le32_length],
      drop_len_app]
  have hgate : ¬ (m.take k).length < 4 := by omega
  simp only [s2_upload_entry, handle_upload_request, htake4, e0, hinitlen]
  rw [if_pos (by omega : 4 ≤ k)]
  rw [if_pos (by constructor <;> omega :
    0 < (dest.length : Int) ∧ (dest.length : Int) < 1024)]
  rw [if_neg (by omega : ¬ (k < 4))]
  rw [if_neg (by omega : ¬ ((dest.length : Int) ≤ 0 ∨ 1024 ≤ (dest.length : Int)))]
  simp only [Int.toNat_natCast]
  rw [if_neg (by rw [hrem0len]; omega : ¬ ((m.take k).drop 4).length < dest.length)]
  rw [hremtake, hremdrop]
  exact s2_tail_spec dest name payload sz _ _ (by rw [hglue])
    hn0 hn1 hp hsz0 hsz1

/- ===== Shared path and extension helpers ===== -/

/-- Model of `getenv("HOME")`: the servers derive every storage root from
this fixed environment value. -/
def home : List Nat := str ("/home/user")

/-- Storage root of node `n` (`"$HOME/Sn"`), for `n` in 1..4. -/
def shardDir (n : Nat) : List Nat := home ++ [47, 83, 48 + n]

/-- S4 base storage directory (`"$HOME/S4"`). -/
def s4_base : List Nat := shardDir 4

/-- Suffix of `l` starting at its last `'.'` byte (46): model of
`strrchr(l, '.')`. -/
def lastDotSuffix : List Nat → Option (List Nat)
  | [] => none
  | a :: rest =>
    match lastDotSuffix rest with
    | some e => some e
    | none => if a = 46 then some (a :: rest) else none

/-- `get_file_extension` (S1.c lines 258-262 and the identical copies in
S2/S3/S4): the last-dot suffix, except that a missing dot or a dot in the
very first position yields the empty extension. -/
def get_file_extension (l : List Nat) : List Nat :=
  match l with
  | [] => []
  | _ :: rest =>
    match lastDotSuffix rest with
    | some e => e
    | none => []

/-- `get_server_for_file` (S1.c lines 265-275): placement policy mapping a
file path to the server number that owns its extension, `-1` if
unsupported. -/
def get_server_for_file (filepath : List Nat) : Int :=
  let ext := get_file_extension filepath
  if ext = str (".c") then 1
  else if ext = str (".pdf") then 2
  else if ext = str (".txt") then 3
  else if ext = str (".zip") then 4
  else -1

/- ===== S4 upload decoder (S4.c `handle_file_upload`, lines 187-458) =====
   Unlike S2/S3, S4 parses the whole header out of the initial buffer: it
   never re-reads a partially received destination path or file name.  An
   out-of-range path length is NOT an error: the extraction is skipped,
   `pos` still advances by `path_len`, and an empty destination later
   falls back to the S4 base directory.  A header whose size field reads
   as zero triggers a separate 8-byte `recv` of the size.  A negative
   path length would make the C code copy from out-of-bounds addresses
   (undefined behaviour); the model aborts there and no theorem relies on
   that case. -/

def handle_file_upload (initial rest : List Nat) : UploadResult :=
  if initial.length < 4 then .aborted
  else
    let pathLen := leToInt 4 (initial.take 4)
    if pathLen < 0 then .aborted
    else if (initial.length : Int) < 4 + pathLen then .aborted
    else
      let dest := if 0 < pathLen ∧ pathLen < 1024 then (initial.drop 4).take pathLen.toNat else []
      let pos1 := 4 + pathLen.toNat
      if initial.length < pos1 + 4 then .aborted
      else
        let nameLen := leToInt 4 ((initial.drop pos1).take 4)
        if (initial.length : Int) < (pos1 : Int) + 4 + nameLen then .aborted
        else if ¬ (0 < nameLen ∧ nameLen < 1024) then .aborted
        else
          let name := (initial.drop (pos1 + 4)).take nameLen.toNat
          let pos2 := pos1 + 4 + nameLen.toNat
          let size0 := if pos2 + 8 ≤ initial.length
            then leToInt 8 ((initial.drop pos2).take 8) else 0
          let pos3 := if pos2 + 8 ≤ initial.length then pos2 + 8 else pos2
          let destC := if dest.length ≤ 1 then s4_base
            else if leadsWith (str ("~S1")) dest then s4_base ++ dest.drop 3
            else dest
          if ¬ (lastDotSuffix name = some (str (".zip")) ∨
                lastDotSuffix name = some (str (".ZIP"))) then .aborted
          else if size0 = 0 ∧ rest.length < 8 then .aborted
          else
            let size := if size0 = 0 then leToInt 8 (rest.take 8) else size0
            let rest1 := if size0 = 0 then rest.drop 8 else rest
            if size ≤ 0 then .aborted
            else if (500 * 1024 * 1024 : Int) < size then .aborted
            else
              let fromBuf := initial.drop pos3
              let content := fromBuf ++ rest1.take (size - (fromBuf.length : Int)).toNat
              if (content.length : Int) = size then .stored destC name content
              else .shortDeleted destC name

/- ===== Decode lemmas for the S4 upload handler ===== -/

theorem slice_take_drop {α : Type} (m a b : List α) (k : Nat) (hsplit : m = a ++ b) :
    (m.take k).drop a.length = b.take (k - a.length) := by
  have h1 : m.drop a.length = b := by rw [hsplit, drop_len_app]
  rw [List.drop_take k a.length m, h1]

theorem field_at {α : Type} (m a f c : List α) (k : Nat)
    (hsplit : m = a ++ (f ++ c)) (hk : a.length + f.length ≤ k) :
    ((m.take k).drop a.length).take f.length = f := by
  rw [slice_take_drop m a (f ++ c) k hsplit, List.take_take,
    Nat.min_eq_left (by omega : f.length ≤ k - a.length), take_len_app]

theorem uploadFrame_length (dest name : List Nat) (sz : Int) (payload : List Nat) :
    (uploadFrame dest name sz payload).length
      = 16 + dest.length + name.length + payload.length := by
  simp only [uploadFrame, List.length_append, le32_length, le64_length]
  omega

theorem s4_decode (dest name payload : List Nat) (k : Nat)
    (hd1 : 1 < dest.length) (hd2 : dest.length < 1024)
    (hpre : leadsWith (str ("~S1")) dest = false)
    (hn0 : 0 < name.length) (hn1 : name.length < 1024)
    (hext : lastDotSuffix name = some (str (".zip")))
    (hp0 : 0 < payload.length) (hp1 : payload.length ≤ 500 * 1024 * 1024)
    (hk0 : 16 + dest.length + name.length ≤ k)
    (hk1 : k ≤ (send_to_server dest name payload).length) :
    handle_file_upload ((send_to_server dest name payload).take k)
        ((send_to_server dest name payload).drop k) = .stored dest name payload := by
  set m := send_to_server dest name payload with hm
  have hmlen : m.length = 16 + dest.length + name.length + payload.length := by
    rw [hm]
    exact uploadFrame_length dest name _ payload
  have hszlt : (payload.length : Int) < 2 ^ 63 := by
    have h2 : ((2 : Int) ^ 63) = 9223372036854775808 := by norm_num
    omega
  have e0 : leToInt 4 (le32 (dest.length : Int)) = (dest.length : Int) := by
    apply leToInt_le32
    · positivity
    · have h2 : ((2 : Int) ^ 31) = 2147483648 := by norm_num
      omega
  have e1 : leToInt 4 (le32 (name.length : Int)) = (name.length : Int) := by
    apply leToInt_le32
    · positivity
    · have h2 : ((2 : Int) ^ 31) = 2147483648 := by norm_num
      omega
  have e2 : leToInt 8 (le64 (payload.length : Int)) = (payload.length : Int) :=
    leToInt_le64 _ (by positivity) hszlt
  have hinitlen : (m.take k).length = k := by
    rw [List.length_take]
    omega
  have hf0 : (m.take k).take 4 = le32 (dest.length : Int) := by
    have h := field_at m [] (le32 (dest.length : Int))
      (dest ++ (le32 (name.length : Int) ++ (name ++ (le64 (payload.length : Int) ++ payload))))
      k (by rw [hm]; simp [send_to_server, uploadFrame, List.append_assoc])
      (by rw [le32_length]; simp; omega)
    simpa [le32_length] using h
  have hf1 : ((m.take k).drop 4).take dest.length = dest := by
    have h := field_at m (le32 (dest.length : Int)) dest
      (le32 (name.length : Int) ++ (name ++ (le64 (payload.length : Int) ++ payload)))
      k (by rw [hm]; simp [send_to_server, uploadFrame, List.append_assoc])
      (by rw [le32_length]; omega)
    simpa [le32_length] using h
  have hf2 : ((m.take k).drop (4 + dest.length)).take 4 = le32 (name.length : Int) := by
    have h := field_at m (le32 (dest.length : Int) ++ dest) (le32 (name.length : Int))
      (name ++ (le64 (payload.length : Int) ++ payload))
      k (by rw [hm]; simp [send_to_server, uploadFrame, List.append_assoc])
      (by simp [le32_length]; omega)
    simpa [le32_length, List.length_append] using h
  have hf3 : ((m.take k).drop (4 + dest.length + 4)).take name.length = name := by
    have h := field_at m ((le32 (dest.length : Int) ++ dest) ++ le32 (name.length : Int)) name
      (le64 (payload.length : Int) ++ payload)
      k (by rw [hm]; simp [send_to_server, uploadFrame, List.append_assoc])
      (by simp [le32_length, List.length_append]; omega)
    simpa [le32_length, List.length_append] using h
  have hf4 : ((m.take k).drop (4 + dest.length + 4 + name.length)).take 8
      = le64 (payload.length : Int) := by
    have h := field_at m
      (((le32 (dest.length : Int) ++ dest) ++ le32 (name.length : Int)) ++ name)
      (le64 (payload.length : Int)) payload
      k (by rw [hm]; simp [send_to_server, uploadFrame, List.append_assoc])
      (by simp [le32_length, le64_length, List.length_append]; omega)
    have e : ((((le32 (dest.length : Int) ++ dest) ++ le32 (name.length : Int)) ++ name)).length
        = 4 + dest.length + 4 + name.length := by
      simp [le32_length, List.length_append]
      omega
    rw [e, le64_length] at h
    exact h
  have hheader : m = ((((le32 (dest.length : Int) ++ dest) ++ le32 (name.length : Int)) ++ name)
      ++ le64 (payload.length : Int)) ++ payload := by
    rw [hm]
    simp [send_to_server, uploadFrame, List.append_assoc]
  have hhlen : (((((le32 (dest.length : Int) ++ dest) ++ le32 (name.length : Int)) ++ name)
      ++ le64 (payload.length : Int))).length = 4 + dest.length + 4 + name.length + 8 := by
    simp [le32_length, le64_length, List.length_append]
    omega
  have hfrom : (m.take k).drop (4 + dest.length + 4 + name.length + 8)
      = payload.take (k - (4 + dest.length + 4 + name.length + 8)) := by
    have h := slice_take_drop m
      ((((le32 (dest.length : Int) ++ dest) ++ le32 (name.length : Int)) ++ name)
        ++ le64 (payload.length : Int)) payload k hheader
    rw [hhlen] at h
    exact h
  have hrest : m.drop k = payload.drop (k - (4 + dest.length + 4 + name.length + 8)) := by
    rw [hheader, drop_app_full _ _ k (by rw [hhlen]; omega), hhlen]
  simp only [handle_file_upload, hinitlen, hf0, e0]
  rw [if_neg (by omega : ¬ k < 4)]
  rw [if_neg (by omega : ¬ (dest.length : Int) < 0)]
  rw [if_neg (by omega : ¬ ((k : Int) < 4 + (dest.length : Int)))]
  rw [if_pos (⟨by omega, by omega⟩ : 0 < (dest.length : Int) ∧ (dest.length : Int) < 1024)]
  simp only [Int.toNat_natCast, hf1]
  rw [if_neg (by omega : ¬ k < 4 + dest.length + 4)]
  rw [hf2, e1]
  simp only [Int.toNat_natCast, hf3]
  rw [if_neg (by push_cast; omega :
    ¬ ((k : Int) < (((4 + dest.length : Nat)) : Int) + 4 + (name.length : Int)))]
  rw [if_neg (by
    rw [not_not]
    exact ⟨by omega, by omega⟩ : ¬ ¬ (0 < (name.length : Int) ∧ (name.length : Int) < 1024))]
  simp only [if_pos (show 4 + dest.length + 4 + name.length + 8 ≤ k by omega)]
  rw [hf4, e2]
  rw [if_neg (by omega : ¬ dest.length ≤ 1)]
  rw [if_neg (by simp [hpre] : ¬ (leadsWith (str ("~S1")) dest = true))]
  rw [if_neg (by
    rw [not_not]
    exact Or.inl hext :
    ¬ ¬ (lastDotSuffix name = some (str (".zip")) ∨
         lastDotSuffix name = some (str (".ZIP"))))]
  rw [if_neg (by
    rintro ⟨h8, _⟩
    omega : ¬ ((payload.length : Int) = 0 ∧ (m.drop k).length < 8))]
  rw [if_neg (by omega : ¬ (payload.length : Int) = 0)]
  rw [if_neg (by omega : ¬ (payload.length : Int) = 0)]
  rw [if_neg (by omega : ¬ (payload.length : Int) ≤ 0)]
  rw [if_neg (by omega : ¬ ((500 * 1024 * 1024 : Int) < (payload.length : Int)))]
  rw [hfrom, hrest]
  have hlentake : (payload.take (k - (4 + dest.length + 4 + name.length + 8))).length
      = k - (4 + dest.length + 4 + name.length + 8) := by
    rw [List.length_take]
    omega
  rw [hlentake]
  have htakeall : (payload.drop (k - (4 + dest.length + 4 + name.length + 8))).take
      (((payload.length : Int)
        - ((k - (4 + dest.length + 4 + name.length + 8) : Nat) : Int)).toNat)
      = payload.drop (k - (4 + dest.length + 4 + name.length + 8)) := by
    apply List.take_of_length_le
    rw [List.length_drop]
    omega
  rw [htakeall, List.take_append_drop]
  rw [if_pos rfl]

theorem take_pre {α : Type} (a b : List α) (n : Nat) (h : a.length = n) :
    (a ++ b).take n = a := by
  subst h
  exact take_len_app a b

theorem drop_pre {α : Type} (a b : List α) (n : Nat) (h : a.length = n) :
    (a ++ b).drop n = b := by
  subst h
  exact drop_len_app a b

/-- S4 decodes a frame whose destination-path length field is the invalid
value `0` by skipping the path, keeping decoding alive, and storing the
file under the S4 base directory: the message is NOT aborted. -/
theorem s4_decode_emptyDest (name payload : List Nat)
    (hn0 : 0 < name.length) (hn1 : name.length < 1024)
    (hext : lastDotSuffix name = some (str (".zip")))
    (hp0 : 0 < payload.length) (hp1 : payload.length ≤ 500 * 1024 * 1024) :
    handle_file_upload (send_to_server [] name payload) [] = .stored s4_base name payload := by
  set m := send_to_server [] name payload with hm
  have hmlen : m.length = 16 + name.length + payload.length := by
    rw [hm]
    have h := uploadFrame_length [] name (payload.length : Int) payload
    simpa [send_to_server] using h
  have hszlt : (payload.length : Int) < 2 ^ 63 := by
    have h2 : ((2 : Int) ^ 63) = 9223372036854775808 := by norm_num
    omega
  have hm2 : m = le32 0 ++ (le32 (name.length : Int) ++ (name ++ (le64 (payload.length : Int) ++ payload))) := by
    rw [hm]
    simp [send_to_server, uploadFrame, List.append_assoc]
  have hm3 : m = (le32 (0 : Int) ++ le32 (name.length : Int))
      ++ (name ++ (le64 (payload.length : Int) ++ payload)) := by
    rw [hm2]
    simp [List.append_assoc]
  have hm4 : m = ((le32 (0 : Int) ++ le32 (name.length : Int)) ++ name)
      ++ (le64 (payload.length : Int) ++ payload) := by
    rw [hm3]
    simp [List.append_assoc]
  have hm5 : m = (((le32 (0 : Int) ++ le32 (name.length : Int)) ++ name)
      ++ le64 (payload.length : Int)) ++ payload := by
    rw [hm4]
    simp [List.append_assoc]
  have e00 : leToInt 4 (le32 0) = 0 := leToInt_le32 0 (le_refl 0) (by norm_num)
  have e1 : leToInt 4 (le32 (name.length : Int)) = (name.length : Int) := by
    apply leToInt_le32
    · positivity
    · have h2 : ((2 : Int) ^ 31) = 2147483648 := by norm_num
      omega
  have e2 : leToInt 8 (le64 (payload.length : Int)) = (payload.length : Int) :=
    leToInt_le64 _ (by positivity) hszlt
  have f0 : m.take 4 = le32 0 := by
    rw [hm2]
    exact take_pre _ _ 4 (le32_length 0)
  have hd4 : m.drop 4 = le32 (name.length : Int)
      ++ (name ++ (le64 (payload.length : Int) ++ payload)) := by
    rw [hm2]
    exact drop_pre _ _ 4 (le32_length 0)
  have f1 : (m.drop 4).take 4 = le32 (name.length : Int) := by
    rw [hd4]
    exact take_pre _ _ 4 (le32_length _)
  have hd8 : m.drop (4 + 4) = name ++ (le64 (payload.length : Int) ++ payload) := by
    rw [hm3]
    exact drop_pre _ _ (4 + 4) (by simp [List.length_append, le32_length])
  have f2 : (m.drop (4 + 4)).take name.length = name := by
    rw [hd8]
    exact take_len_app name _
  have hd3 : m.drop (4 + 4 + name.length) = le64 (payload.length : Int) ++ payload := by
    rw [hm4]
    exact drop_pre _ _ (4 + 4 + name.length) (by simp [List.length_append, le32_length]; omega)
  have f3 : (m.drop (4 + 4 + name.length)).take 8 = le64 (payload.length : Int) := by
    rw [hd3]
    exact take_pre _ _ 8 (le64_length _)
  have hd5 : m.drop (4 + 4 + name.length + 8) = payload := by
    rw [hm5]
    exact drop_pre _ _ (4 + 4 + name.length + 8)
      (by simp [List.length_append, le32_length, le64_length]; omega)
  simp only [handle_file_upload, f0, e00]
  rw [if_neg (by omega : ¬ m.length < 4)]
  rw [if_neg (by omega : ¬ (0 : Int) < 0)]
  rw [if_neg (by omega : ¬ ((m.length : Int) < 4 + 0))]
  rw [if_neg (by rintro ⟨h0, _⟩; omega : ¬ ((0 : Int) < 0 ∧ (0 : Int) < 1024))]
  simp only [Int.toNat_zero, Nat.add_zero]
  rw [if_neg (by omega : ¬ m.length < 4 + 4)]
  rw [f1, e1]
  simp only [Int.toNat_natCast, f2]
  rw [if_neg (by push_cast; omega : ¬ ((m.length : Int) < ((4 : Nat) : Int) + 4 + (name.length : Int)))]
  rw [if_neg (by
    rw [not_not]
    exact ⟨by omega, by omega⟩ : ¬ ¬ (0 < (name.length : Int) ∧ (name.length : Int) < 1024))]
  simp only [if_pos (show 4 + 4 + name.length + 8 ≤ m.length by omega)]
  rw [f3, e2]
  rw [if_pos (by simp : (([] : List Nat)).length ≤ 1)]
  rw [if_neg (by
    rw [not_not]
    exact Or.inl hext :
    ¬ ¬ (lastDotSuffix name = some (str (".zip")) ∨
         lastDotSuffix name = some (str (".ZIP"))))]
  rw [if_neg (by
    rintro ⟨h8, _⟩
    omega : ¬ ((payload.length : Int) = 0 ∧ (([] : List Nat)).length < 8))]
  rw [if_neg (by omega : ¬ (payload.length : Int) = 0)]
  rw [if_neg (by omega : ¬ (payload.length : Int) = 0)]
  rw [if_neg (by omega : ¬ (payload.length : Int) ≤ 0)]
  rw [if_neg (by omega : ¬ ((500 * 1024 * 1024 : Int) < (payload.length : Int)))]
  rw [hd5]
  simp only [List.take_nil, List.append_nil, if_true]

/- ===== Coordinator path rewriting ===== -/

/-- `convert_path_for_server` (S1.c lines 277-282): `"~"` ++ server name ++
the client path minus its leading three bytes (`~S1`).  Used only for
`GET_FILE` (and tar) forwarding. -/
def convert_path_for_server (s1_path serverName : List Nat) : List Nat :=
  [126] ++ serverName ++ s1_path.drop 3

/-- Path sent in `DELETE <path>` to node `n` (`s1_handle_removef`, S1.c
lines 1106-1163): the absolute filesystem path `$HOME/Sn` ++ rest — not a
`~Sn` logical path. -/
def removef_remote_path (n : Nat) (p : List Nat) : List Nat := shardDir n ++ p.drop 3

/-- Destination carried by the upload frame S1 sends to node `n`
(`s1_handle_uploadf`, S1.c lines 926-955): absolute `$HOME/Sn` ++ rest. -/
def uploadf_remote_dest (n : Nat) (actualDest : List Nat) : List Nat :=
  shardDir n ++ actualDest.drop 3

/-- Path sent in `LIST <path>` to node `n` (`s1_handle_dispfnames`, S1.c
lines 1342-1357): absolute `$HOME/Sn` ++ rest. -/
def dispfnames_remote_path (n : Nat) (p : List Nat) : List Nat := shardDir n ++ p.drop 3

/- ===== Coordinator upload receive (`s1_handle_uploadf`) ===== -/

/-- Remote node contacted by `s1_handle_uploadf` for a completely received
file, chosen by the name's extension (S1.c lines 922-969); `.c` files and
unknown extensions cause no storage-node connection. -/
def uploadf_route (name : List Nat) : Option Nat :=
  let ext := get_file_extension name
  if ext = str (".pdf") then some 2
  else if ext = str (".txt") then some 3
  else if ext = str (".zip") then some 4
  else none

/-- Disk/tally outcome of one file inside `s1_handle_uploadf`. -/
structure S1Upload where
  localFile : Option (List Nat × List Nat)
  processed : Bool
  forwardedTo : Option Nat
deriving DecidableEq

/-- One file of `s1_handle_uploadf` (S1.c lines 845-976): S1 writes at
`finalDest/name` whatever arrives of the declared size until the stream
ends.  On a short transfer the file is closed and KEPT — the incomplete
branch (lines 971-973) only prints an error, it never unlinks — and the
file is not counted processed.  On a complete transfer the file counts as
processed; a remote-typed file is then re-sent with `send_to_server`
(recorded in `forwardedTo`) and the local copy is unlinked exactly when
S1's own sending loop completed (`forward_ok`) — the storage node's fate
of the bytes is not consulted.  Unknown extensions stay in S1's store. -/
def s1_upload_file (finalDest name : List Nat) (declaredSize : Int) (stream : List Nat)
    (forward_ok : Bool) : S1Upload :=
  let path := finalDest ++ [47] ++ name
  let written := stream.take declaredSize.toNat
  if (written.length : Int) = declaredSize then
    match uploadf_route name with
    | none => ⟨some (path, written), true, none⟩
    | some n =>
      if forward_ok then ⟨none, true, some n⟩ else ⟨some (path, written), true, some n⟩
  else ⟨some (path, written), false, none⟩

/- ===== Download path (`downlf` proxying) ===== -/

/-- Association-list file system: absolute path ↦ content. -/
def lookupFile : List (List Nat × List Nat) → List Nat → Option (List Nat)
  | [], _ => none
  | (p, c) :: fs, q => if p = q then some c else lookupFile fs q

/-- `send_file_to_s1` of a storage node answering `GET_FILE <path>`
(part_000 lines 173-220, S4.c lines 129-183): the 8-byte size then the
file bytes, or the bare `-1` sentinel — nothing before it, nothing after
it — when the file cannot be opened.  S1 always sends `~Sn`-rooted
request paths, which the node maps to `$HOME/Sn` ++ rest. -/
def send_file_to_s1 (n : Nat) (fs : List (List Nat × List Nat)) (reqPath : List Nat) :
    Int × List Nat :=
  match lookupFile fs (shardDir n ++ reqPath.drop 3) with
  | none => (-1, [])
  | some c => ((c.length : Int), c)

/-- What S1 observes from the storage node during a download proxy. -/
inductive AuxResp where
  | unreachable : AuxResp
  | headerLost : AuxResp
  | sized : Int → List Nat → AuxResp
deriving DecidableEq

/-- `forward_file_from_aux_server` (S1.c lines 360-420), as the pair
(size field sent to the client, payload bytes relayed after it):
connection failure and a lost size header both send the bare `-1`; a
`-1` size from the node is relayed and the exchange stops; otherwise the
size is relayed and up to `size` payload bytes are streamed through. -/
def forward_file_from_aux_server : AuxResp → Int × List Nat
  | .unreachable => (-1, [])
  | .headerLost => (-1, [])
  | .sized sz payload => (sz, payload.take sz.toNat)

/- ===== File removal (`removef`) ===== -/

/-- `send_delete_request` (S1.c lines 989-1039): returns 0 as soon as the
DELETE command has been transmitted; the node's textual response is
received, printed and discarded — it never influences the return value. -/
def send_delete_request (connect_ok send_ok : Bool) (_nodeResponse : List Nat) : Int :=
  if ¬ connect_ok then -1
  else if ¬ send_ok then -1
  else 0

/-- Remote branch of `s1_handle_removef` (S1.c lines 1106-1163) for node
`n`: (does the file count in `files_removed`?, text appended to the
client response).  The node's deleted/not-found/failed text is not
relayed. -/
def removef_remote (n : Nat) (fname : List Nat) (connect_ok send_ok : Bool)
    (nodeResponse : List Nat) : Bool × List Nat :=
  if send_delete_request connect_ok send_ok nodeResponse = 0 then
    (true, str ("Delete request sent to S") ++ [48 + n] ++ str (": ") ++ fname ++ str ("; "))
  else
    (false, str ("Failed to contact S") ++ [48 + n] ++ str (" for: ") ++ fname ++ str ("; "))

/-- Per-extension dispatch of `s1_handle_removef` (S1.c lines 1082-1171). -/
inductive RemovefAction where
  | localDelete : RemovefAction
  | remoteDelete : Nat → RemovefAction
  | unsupported : RemovefAction
deriving DecidableEq

def removef_dispatch (fname : List Nat) : RemovefAction :=
  let ext := get_file_extension fname
  if ext = str (".c") then .localDelete
  else if ext = str (".pdf") then .remoteDelete 2
  else if ext = str (".txt") then .remoteDelete 3
  else if ext = str (".zip") then .remoteDelete 4
  else .unsupported

/-- Storage node contacted while removing one file, if any: only the
remote-extension branches open a connection. -/
def removef_networkCall (fname : List Nat) : Option Nat :=
  match removef_dispatch fname with
  | .remoteDelete n => some n
  | _ => none

/-- Response text of the unsupported-extension branch (S1.c lines
1165-1171); the branch never increments `files_removed`. -/
def removef_unsupported_msg (fname : List Nat) : List Nat :=
  str ("Unsupported file type: ") ++ fname ++ str ("; ")

/- ===== Directory listing (`dispfnames`) ===== -/

/-- ASCII decimal rendering (`%d`). -/
def natToDec (n : Nat) : List Nat := (Nat.toDigits 10 n).map Char.toNat

/-- Byte-wise `strcmp(a, b) <= 0`, the order induced by `string_compare`
(S1.c lines 253-255). -/
def strcmpLe : List Nat → List Nat → Bool
  | [], _ => true
  | _ :: _, [] => false
  | a :: as, b :: bs => if a < b then true else if b < a then false else strcmpLe as bs

def StrLe (a b : List Nat) : Prop := strcmpLe a b = true

instance : DecidableRel StrLe := fun a b => by
  unfold StrLe
  infer_instance

theorem strcmpLe_total (a : List Nat) : ∀ b, strcmpLe a b = true ∨ strcmpLe b a = true := by
  induction a with
  | nil => intro b; left; rfl
  | cons x xs ih =>
    intro b
    cases b with
    | nil => right; rfl
    | cons y ys =>
      simp only [strcmpLe]
      rcases Nat.lt_trichotomy x y with h | h | h
      · left
        rw [if_pos h]
      · subst h
        simp only [if_neg (lt_irrefl x)]
        exact ih ys
      · right
        rw [if_pos h]

theorem strcmpLe_trans (a : List Nat) :
    ∀ b c, strcmpLe a b = true → strcmpLe b c = true → strcmpLe a c = true := by
  induction a with
  | nil => intro b c _ _; rfl
  | cons x xs ih =>
    intro b c hab hbc
    cases b with
    | nil => simp [strcmpLe] at hab
    | cons y ys =>
      cases c with
      | nil => simp [strcmpLe] at hbc
      | cons z zs =>
        simp only [strcmpLe] at hab hbc ⊢
        by_cases hxy : x < y
        · by_cases hyz : y < z
          · rw [if_pos (by omega : x < z)]
          · by_cases hzy : z < y
            · rw [if_neg hyz, if_pos hzy] at hbc
              exact absurd hbc (by simp)
            · rw [if_pos (by omega : x < z)]
        · by_cases hyx : y < x
          · rw [if_neg hxy, if_pos hyx] at hab
            exact absurd hab (by simp)
          · have hxy2 : x = y := by omega
            subst hxy2
            simp only [if_neg (lt_irrefl x)] at hab
            by_cases hxz : x < z
            · rw [if_pos hxz]
            · by_cases hzx : z < x
              · rw [if_neg hxz, if_pos hzx] at hbc
                exact absurd hbc (by simp)
              · have hxz2 : x = z := by omega
                subst hxz2
                simp only [if_neg (lt_irrefl x)] at hbc ⊢
                exact ih ys zs hab hbc

instance : IsTotal (List Nat) StrLe := ⟨fun a b => strcmpLe_total a b⟩

instance : IsTrans (List Nat) StrLe := ⟨fun a b c => strcmpLe_trans a b c⟩

/-- `qsort(..., string_compare)`: the strcmp-sorted rearrangement (the
model uses insertion sort, which agrees with qsort on a total order). -/
def sortLex (l : List (List Nat)) : List (List Nat) := List.insertionSort StrLe l

/-- Line filter of `get_files_from_server` (S1.c lines 1238-1249): keep
the nonempty lines that do not contain "SUCCESS", "ERROR" or
"Files found" (case-sensitive `strstr`). -/
def keepLine (l : List Nat) : Bool :=
  !l.isEmpty && !hasSub (str ("SUCCESS")) l && !hasSub (str ("ERROR")) l
    && !hasSub (str ("Files found")) l

/-- One LIST exchange as S1 observes it. -/
inductive SrcResult where
  | unreachable : SrcResult
  | noResponse : SrcResult
  | reply : List (List Nat) → SrcResult
deriving DecidableEq

/-- `get_files_from_server` (S1.c lines 1188-1254): the entries parsed
out of one exchange.  A connect failure or empty response parses to no
entries, and the caller continues with the other sources either way. -/
def get_files_from_server : SrcResult → List (List Nat)
  | .unreachable => []
  | .noResponse => []
  | .reply lines => lines.filter (fun l => keepLine l)

/-- `handle_list_request` of S2 (part_000 lines 317-371): response lines.
An empty directory answers with the single line "No .pdf files found in
S2"; otherwise a "Files found in S2: n" header precedes the names. -/
def s2_list_response (files : List (List Nat)) : List (List Nat) :=
  if files.isEmpty then [str ("No .pdf files found in S2")]
  else (str ("Files found in S2: ") ++ natToDec files.length) :: files

/-- Client-visible outcome of `s1_handle_dispfnames` (S1.c lines
1388-1426): the fixed no-files text, or a block of one summary line
(total plus the four per-source counts) followed by the entry lines. -/
inductive ListResp where
  | noFiles : ListResp
  | block : Nat → Nat → Nat → Nat → Nat → List (List Nat) → ListResp
deriving DecidableEq

/-- `s1_handle_dispfnames` after its four source queries (S1.c lines
1330-1426): the local `.c`-filtered directory entries and the three
parsed LIST replies are each sorted with `string_compare`, then emitted
in the fixed order .c, .pdf, .txt, .zip behind the summary line. -/
def s1_handle_dispfnames (localEntries : List (List Nat)) (r2 r3 r4 : SrcResult) : ListResp :=
  let c := sortLex (localEntries.filter (fun e => get_file_extension e == str (".c")))
  let p := sortLex (get_files_from_server r2)
  let t := sortLex (get_files_from_server r3)
  let z := sortLex (get_files_from_server r4)
  if c.length + p.length + t.length + z.length = 0 then .noFiles
  else .block (c.length + p.length + t.length + z.length)
    c.length p.length t.length z.length (c ++ p ++ t ++ z)

/-- Outcome of the full `dispfnames` handler: either the fixed
"Error: Directory not found in S1" text (nothing else is sent), or the
assembled listing. -/
inductive DispOutcome where
  | dirMissing : DispOutcome
  | listed : ListResp → DispOutcome
deriving DecidableEq

/-- `s1_handle_dispfnames` from its local-directory check on (S1.c
lines 1322-1426): when `stat` on the local `$HOME/S1` shard directory
fails or names a non-directory, the handler sends "Error: Directory not
found in S1" and returns without querying any source; otherwise the
four sources are queried and assembled as in `s1_handle_dispfnames`.
`localDirExists` is the outcome of that `stat` check. -/
def s1_dispfnames_entry (localDirExists : Bool) (localEntries : List (List Nat))
    (r2 r3 r4 : SrcResult) : DispOutcome :=
  if localDirExists then .listed (s1_handle_dispfnames localEntries r2 r3 r4)
  else .dirMissing

/- ===== End-to-end upload/download pipeline (uploadf then downlf) ===== -/

/-- Files left on disk after one `uploadf` of one file: the coordinator's
local store and the owning storage node's store. -/
structure PipelineState where
  s1File : Option (List Nat × List Nat)
  nodeFile : Option (List Nat × List Nat × List Nat)
deriving DecidableEq

/-- One file of `uploadf <file> <clientDest>`, fully delivered by the
client: S1 stores it under `$HOME/S1` ++ rest, then (for a remote-typed
extension) re-sends it with `send_to_server` to the owning node, whose
upload handler reads the frame — first `recv` returning at most one
buffer (8191 bytes for S2/S3, 16383 for S4), the remainder on demand —
and unlinks its own copy, `send_to_server` having completed. -/
def uploadPipeline (clientDest name content : List Nat) : PipelineState :=
  let finalDest := shardDir 1 ++ clientDest.drop 3
  let u := s1_upload_file finalDest name (content.length : Int) content true
  let nodeFile :=
    match uploadf_route name with
    | none => none
    | some n =>
      let frame := send_to_server (uploadf_remote_dest n clientDest) name content
      let res := if n = 4 then handle_file_upload (frame.take 16383) (frame.drop 16383)
                 else s2_upload_entry (frame.take 8191) (frame.drop 8191)
      res.persisted
  ⟨u.localFile, nodeFile⟩

/-- `downlf <clientPath>` against the stores of `uploadPipeline`:
`get_server_for_file` picks local service or the proxy via `GET_FILE` on
the `convert_path_for_server` rewrite; the client sees `none` exactly
when the `-1` sentinel arrives, otherwise the relayed bytes. -/
def downloadPipeline (st : PipelineState) (clientPath : List Nat) : Option (List Nat) :=
  let srv := get_server_for_file clientPath
  if srv = 1 then
    match st.s1File with
    | some (p, c) => if p = shardDir 1 ++ clientPath.drop 3 then some c else none
    | none => none
  else if srv = 2 ∨ srv = 3 ∨ srv = 4 then
    let n := srv.toNat
    let req := convert_path_for_server clientPath [83, 48 + n]
    let fs := match st.nodeFile with
      | some (d, nm, c) => [(d ++ [47] ++ nm, c)]
      | none => []
    let nodeOut := send_file_to_s1 n fs req
    let cliOut := forward_file_from_aux_server (.sized nodeOut.1 nodeOut.2)
    if cliOut.1 = -1 then none else some cliOut.2
  else none

/- ===== Claim theorems ===== -/

/-- Helper: a byte list never starts with `~S1` when its first byte is
not `~` (126); used for the shard-path rewrite claims. -/
theorem leadsWith_s1_false_of_slash (rest : List Nat) :
    leadsWith (str ("~S1")) (47 :: rest) = false := rfl

/-- C5 counterexample: the claim says every forwarded path is rewritten
into a `~S2`/`~S3`/`~S4` logical path, but the path S1 puts into a
`DELETE` command is the absolute filesystem path `$HOME/S2/...`, which
neither starts with `~` nor with `~S2`. -/
theorem C5_counterexample :
    removef_remote_path 2 (str ("~S1/docs/a.pdf")) = str ("/home/user/S2/docs/a.pdf") ∧
    leadsWith (str ("~S2")) (removef_remote_path 2 (str ("~S1/docs/a.pdf"))) = false ∧
    (removef_remote_path 2 (str ("~S1/docs/a.pdf"))).head? ≠ some 126 := by
  refine ⟨by decide, by decide, by decide⟩

/-- C5 (amended): only `GET_FILE` paths are rewritten to the shard-relative
logical form `~Sn/...`; `DELETE`, `LIST` and the upload destination are
rewritten to the absolute path `$HOME/Sn/...`.  In every case the leading
`~S1` is stripped, so a storage node never receives the original client
path. -/
theorem C5_amended (p d : List Nat) (n : Nat) (h2 : 2 ≤ n) (h4 : n ≤ 4) :
    convert_path_for_server p [83, 48 + n] = [126, 83, 48 + n] ++ p.drop 3 ∧
    leadsWith (str ("~S1")) (convert_path_for_server p [83, 48 + n]) = false ∧
    removef_remote_path n p = shardDir n ++ p.drop 3 ∧
    dispfnames_remote_path n p = shardDir n ++ p.drop 3 ∧
    uploadf_remote_dest n d = shardDir n ++ d.drop 3 ∧
    leadsWith (str ("~S1")) (removef_remote_path n p) = false ∧
    leadsWith (str ("~S1")) (uploadf_remote_dest n d) = false ∧
    leadsWith (str ("~S1")) (dispfnames_remote_path n p) = false := by
  refine ⟨rfl, ?_, rfl, rfl, rfl, ?_, ?_, ?_⟩
  · show leadsWith [126, 83, 49] (126 :: 83 :: (48 + n) :: p.drop 3) = false
    simp only [leadsWith, beq_self_eq_true, Bool.true_and]
    have h : (49 == 48 + n) = false := by
      simp only [beq_eq_false_iff_ne, ne_eq]
      omega
    rw [h]
    rfl
  · exact leadsWith_s1_false_of_slash _
  · exact leadsWith_s1_false_of_slash _
  · exact leadsWith_s1_false_of_slash _

theorem C5_amended_witness :
    convert_path_for_server (str ("~S1/x.pdf")) [83, 48 + 2]
        = [126, 83, 48 + 2] ++ (str ("~S1/x.pdf")).drop 3 ∧
    leadsWith (str ("~S1")) (convert_path_for_server (str ("~S1/x.pdf")) [83, 48 + 2]) = false ∧
    removef_remote_path 2 (str ("~S1/x.pdf")) = shardDir 2 ++ (str ("~S1/x.pdf")).drop 3 ∧
    dispfnames_remote_path 2 (str ("~S1/x.pdf")) = shardDir 2 ++ (str ("~S1/x.pdf")).drop 3 ∧
    uploadf_remote_dest 2 (str ("~S1/dir")) = shardDir 2 ++ (str ("~S1/dir")).drop 3 ∧
    leadsWith (str ("~S1")) (removef_remote_path 2 (str ("~S1/x.pdf"))) = false ∧
    leadsWith (str ("~S1")) (uploadf_remote_dest 2 (str ("~S1/dir"))) = false ∧
    leadsWith (str ("~S1")) (dispfnames_remote_path 2 (str ("~S1/x.pdf"))) = false :=
  C5_amended (str ("~S1/x.pdf")) (str ("~S1/dir")) 2 (by norm_num) (by norm_num)

/-- C6: when the owning storage node reports not-found or is unreachable
at connect time, the coordinator relays the `-1` size sentinel to the
client; the node sends the sentinel standalone (no path/name preamble),
and a `-1` relayed by the coordinator is never followed by payload
bytes. -/
theorem C6_sentinel_relay (n : Nat) (fs : List (List Nat × List Nat)) (req p : List Nat)
    (r : AuxResp) (hmiss : lookupFile fs (shardDir n ++ req.drop 3) = none)
    (hr : (forward_file_from_aux_server r).1 = -1) :
    send_file_to_s1 n fs req = (-1, []) ∧
    forward_file_from_aux_server (.sized (-1) p) = (-1, []) ∧
    forward_file_from_aux_server .unreachable = (-1, []) ∧
    forward_file_from_aux_server .headerLost = (-1, []) ∧
    (forward_file_from_aux_server r).2 = [] := by
  refine ⟨?_, ?_, rfl, rfl, ?_⟩
  · simp [send_file_to_s1, hmiss]
  · simp [forward_file_from_aux_server]
  · cases r with
    | unreachable => rfl
    | headerLost => rfl
    | sized sz payload =>
      simp only [forward_file_from_aux_server] at hr ⊢
      subst hr
      rfl

theorem C6_sentinel_relay_witness :
    send_file_to_s1 2 [] (str ("~S2/a.pdf")) = (-1, []) ∧
    forward_file_from_aux_server (.sized (-1) [3, 4]) = (-1, []) ∧
    forward_file_from_aux_server .unreachable = (-1, []) ∧
    forward_file_from_aux_server .headerLost = (-1, []) ∧
    (forward_file_from_aux_server (.sized (-1) [5])).2 = [] :=
  C6_sentinel_relay 2 [] (str ("~S2/a.pdf")) [3, 4] (.sized (-1) [5]) (by decide) (by decide)

/-- C10: once the DELETE command has been transmitted to the owning
storage node, `s1_handle_removef` counts the file in its processed
tally regardless of the node's textual outcome — a not-found reply
increments it like a deleted reply — and the text appended to the client
response is a fixed string that does not depend on (and does not relay)
the node's own deleted/not-found/failed message. -/
theorem C10_remote_tally (n : Nat) (fname r r2 : List Nat) :
    (removef_remote n fname true true r).1 = true ∧
    removef_remote n fname true true r = removef_remote n fname true true r2 ∧
    (removef_remote n fname true true r).2
      = str ("Delete request sent to S") ++ [48 + n] ++ str (": ") ++ fname ++ str ("; ")
    ∧ send_delete_request true true r = 0 := by
  refine ⟨rfl, rfl, rfl, rfl⟩

/-- C4 counterexample: a file whose extension is outside the placement
record (`notes.md`) is NOT rejected by `uploadf`: S1 receives it fully,
counts it processed, and stores it in its own shard ("Unknown file type,
stored in S1") — even though no storage-node call is made. -/
theorem C4_counterexample :
    (s1_upload_file (str ("/home/user/S1/docs")) (str ("notes.md")) 3 [1, 2, 3] true).processed
      = true ∧
    (s1_upload_file (str ("/home/user/S1/docs")) (str ("notes.md")) 3 [1, 2, 3] true).forwardedTo
      = none ∧
    (s1_upload_file (str ("/home/user/S1/docs")) (str ("notes.md")) 3 [1, 2, 3] true).localFile
      = some (str ("/home/user/S1/docs") ++ [47] ++ str ("notes.md"), [1, 2, 3]) ∧
    uploadf_route (str ("notes.md")) = none ∧
    get_server_for_file (str ("notes.md")) = -1 := by
  refine ⟨by decide, by decide, by decide, by decide, by decide⟩

/-- C4 (amended): for an extension outside the placement record, neither
`uploadf` nor `removef` contacts any storage node; `removef` rejects the
file (unsupported, not counted), but `uploadf` accepts it — the file is
stored in S1's own shard and counted as processed. -/
theorem C4_amended (name finalDest stream : List Nat) (szd : Int)
    (hc : get_file_extension name ≠ str (".c"))
    (hp : get_file_extension name ≠ str (".pdf"))
    (ht : get_file_extension name ≠ str (".txt"))
    (hz : get_file_extension name ≠ str (".zip")) :
    removef_dispatch name = .unsupported ∧
    removef_networkCall name = none ∧
    uploadf_route name = none ∧
    (s1_upload_file finalDest name szd stream true).forwardedTo = none ∧
    get_server_for_file name = -1 := by
  have hroute : uploadf_route name = none := by
    simp only [uploadf_route, if_neg hp, if_neg ht, if_neg hz]
  refine ⟨?_, ?_, hroute, ?_, ?_⟩
  · simp only [removef_dispatch, if_neg hc, if_neg hp, if_neg ht, if_neg hz]
  · simp only [removef_networkCall, removef_dispatch,
      if_neg hc, if_neg hp, if_neg ht, if_neg hz]
  · simp only [s1_upload_file, hroute]
    split
    · rfl
    · rfl
  · simp only [get_server_for_file, if_neg hc, if_neg hp, if_neg ht, if_neg hz]

theorem C4_amended_witness :
    removef_dispatch (str ("notes.xy")) = .unsupported ∧
    removef_networkCall (str ("notes.xy")) = none ∧
    uploadf_route (str ("notes.xy")) = none ∧
    (s1_upload_file (str ("/home/user/S1")) (str ("notes.xy")) 1 [9] true).forwardedTo = none ∧
    get_server_for_file (str ("notes.xy")) = -1 :=
  C4_amended (str ("notes.xy")) (str ("/home/user/S1")) [9] 1
    (by decide) (by decide) (by decide) (by decide)

/-- C2 counterexample: the client delivers only 1 of the declared 2 bytes
to the coordinator; `s1_handle_uploadf` closes the file and leaves the
1-byte partial file at the destination path — the incomplete branch never
unlinks — contradicting "no partial file remains at the destination". -/
theorem C2_counterexample :
    (s1_upload_file (str ("/home/user/S1/docs")) (str ("a.c")) 2 [7] true).processed = false ∧
    (s1_upload_file (str ("/home/user/S1/docs")) (str ("a.c")) 2 [7] true).localFile
      = some (str ("/home/user/S1/docs") ++ [47] ++ str ("a.c"), [7]) := by
  refine ⟨by decide, by decide⟩

/-- C2 (amended): on a short transfer the storage nodes delete the
partial file (`handle_upload_request` unlinks it, leaving nothing
persisted), but the coordinator's own client-to-S1 leg retains the
partial file at the local destination path and merely leaves the file
out of the processed tally. -/
theorem C2_amended (dest name payload : List Nat) (sz : Int)
    (hd0 : 0 < dest.length) (hd1 : dest.length < 1024)
    (hn0 : 0 < name.length) (hn1 : name.length < 256)
    (hshort : (payload.length : Int) < sz) (hsz1 : sz < 2 ^ 63)
    (finalDest sname stream : List Nat) (sdecl : Int)
    (hs : (stream.length : Int) < sdecl) :
    s2_upload_entry (uploadFrame dest name sz payload) [] = .shortDeleted dest name ∧
    (s2_upload_entry (uploadFrame dest name sz payload) []).persisted = none ∧
    (s1_upload_file finalDest sname sdecl stream true).processed = false ∧
    (s1_upload_file finalDest sname sdecl stream true).localFile
      = some (finalDest ++ [47] ++ sname, stream) := by
  have h := s2_decode dest name payload sz (uploadFrame dest name sz payload).length
    hd0 hd1 hn0 hn1 (le_of_lt hshort) (by omega) hsz1
    (by rw [uploadFrame_length]; omega) (le_refl _)
  rw [List.take_length, List.drop_length] at h
  rw [if_neg (by omega : ¬ ((payload.length : Int) = sz))] at h
  have hw : stream.take sdecl.toNat = stream := List.take_of_length_le (by omega)
  have hnc : ¬ ((stream.length : Int) = sdecl) := by omega
  refine ⟨h, by rw [h]; rfl, ?_, ?_⟩
  · simp only [s1_upload_file, hw, if_neg hnc]
  · simp only [s1_upload_file, hw, if_neg hnc]

theorem C2_amended_witness :
    s2_upload_entry (uploadFrame (str ("/d")) (str ("x.pdf")) 2 [1]) []
      = .shortDeleted (str ("/d")) (str ("x.pdf")) ∧
    (s2_upload_entry (uploadFrame (str ("/d")) (str ("x.pdf")) 2 [1]) []).persisted = none ∧
    (s1_upload_file (str ("/home/user/S1")) (str ("a.c")) 2 [7] true).processed = false ∧
    (s1_upload_file (str ("/home/user/S1")) (str ("a.c")) 2 [7] true).localFile
      = some (str ("/home/user/S1") ++ [47] ++ str ("a.c"), [7]) :=
  C2_amended (str ("/d")) (str ("x.pdf")) [1] 2 (by decide) (by decide) (by decide) (by decide)
    (by decide) (by decide) (str ("/home/user/S1")) (str ("a.c")) [7] 2 (by decide)

/-- C7 counterexample: an upload message whose destination-path length
field is 0 (an invalid, non-positive length) is NOT aborted by the S4
decoder: the path is skipped, decoding continues, and the file is
written under the S4 base directory. -/
theorem C7_counterexample :
    handle_file_upload (send_to_server [] (str ("a.zip")) [9]) []
      = .stored s4_base (str ("a.zip")) [9] ∧
    leToInt 4 ((send_to_server [] (str ("a.zip")) [9]).take 4) = 0 := by
  refine ⟨by decide, by decide⟩

/-- C7 (amended): S2/S3 abort the message on an invalid destination-path
length and on an invalid file-name length, writing no file and reading
no further component; S4 aborts on an invalid file-name length but
treats an out-of-range destination-path length as a skippable field —
with a zero length it stores the file under its base directory instead
of aborting. -/
theorem C7_amended (initial rest : List Nat) (dest rem rest2 nlB rem2 rest3 : List Nat)
    (name payload : List Nat)
    (h4 : ¬ initial.length < 4)
    (hbad : leToInt 4 (initial.take 4) ≤ 0 ∨ 1024 ≤ leToInt 4 (initial.take 4))
    (hread : read2 4 rem rest2 = some (nlB, rem2, rest3))
    (hnbad : leToInt 4 nlB ≤ 0 ∨ 256 ≤ leToInt 4 nlB)
    (hn0 : 0 < name.length) (hn1 : name.length < 1024)
    (hext : lastDotSuffix name = some (str (".zip")))
    (hp0 : 0 < payload.length) (hp1 : payload.length ≤ 500 * 1024 * 1024) :
    handle_upload_request initial rest = .aborted ∧
    s2_tail dest rem rest2 = .aborted ∧
    handle_file_upload (send_to_server [] name payload) []
      = .stored s4_base name payload := by
  refine ⟨?_, ?_, s4_decode_emptyDest name payload hn0 hn1 hext hp0 hp1⟩
  · simp only [handle_upload_request, if_neg h4, if_pos hbad]
  · simp only [s2_tail, hread, if_pos hnbad]

theorem C7_amended_witness :
    handle_upload_request (le32 0 ++ [1, 2, 3, 4]) [] = .aborted ∧
    s2_tail (str ("/d")) (le32 0) [] = .aborted ∧
    handle_file_upload (send_to_server [] (str ("b.zip")) [9]) []
      = .stored s4_base (str ("b.zip")) [9] :=
  C7_amended (le32 0 ++ [1, 2, 3, 4]) [] (str ("/d")) (le32 0) [] (le32 0) [] []
    (str ("b.zip")) [9] (by decide) (by decide) (by decide) (by decide)
    (by decide) (by decide) (by decide) (by decide) (by decide)

/-- C3 counterexample: the same well-formed upload message decodes
differently at different read boundaries: delivered whole it is stored,
but split after 5 bytes — the length field plus one byte of the
destination path — the S2 decoder aborts ("Insufficient data for
destination path") rather than resuming. -/
theorem C3_counterexample :
    s2_upload_entry ((send_to_server (str ("/d")) (str ("b.pdf")) [55]).take 5)
        ((send_to_server (str ("/d")) (str ("b.pdf")) [55]).drop 5) = .aborted ∧
    s2_upload_entry (send_to_server (str ("/d")) (str ("b.pdf")) [55]) []
      = .stored (str ("/d")) (str ("b.pdf")) [55] := by
  refine ⟨by decide, by decide⟩

/-- C3 (amended): the S2/S3 upload decoder is split-invariant for every
read boundary that falls at or after the end of the destination path:
for any such split the leftover bytes of the first read are consumed in
place — never re-requested — and the decoded destination, name, size and
stored payload are identical to the unsplit decode.  (Boundaries inside
the 4-byte length field or the destination path abort instead, as the
counterexample shows.) -/
theorem C3_amended (dest name content : List Nat) (k : Nat)
    (hd0 : 0 < dest.length) (hd1 : dest.length < 1024)
    (hn0 : 0 < name.length) (hn1 : name.length < 256)
    (hsz : (content.length : Int) < 2 ^ 63)
    (hk0 : 4 + dest.length ≤ k) (hk1 : k ≤ (send_to_server dest name content).length) :
    s2_upload_entry ((send_to_server dest name content).take k)
        ((send_to_server dest name content).drop k) = .stored dest name content := by
  have h := s2_decode dest name content (content.length : Int) k hd0 hd1 hn0 hn1
    (le_refl _) (by omega) hsz hk0 (by simpa [send_to_server] using hk1)
  rw [if_pos rfl] at h
  simpa [send_to_server] using h

theorem C3_amended_witness :
    s2_upload_entry ((send_to_server (str ("/d")) (str ("b.pdf")) [55]).take 7)
        ((send_to_server (str ("/d")) (str ("b.pdf")) [55]).drop 7)
      = .stored (str ("/d")) (str ("b.pdf")) [55] :=
  C3_amended (str ("/d")) (str ("b.pdf")) [55] 7 (by decide) (by decide) (by decide)
    (by decide) (by decide) (by decide) (by decide)

/- ===== Listing lemmas (C8, C9) ===== -/

def ListResp.entriesOf : ListResp → List (List Nat)
  | .noFiles => []
  | .block _ _ _ _ _ es => es

def ListResp.pdfCount : ListResp → Nat
  | .noFiles => 0
  | .block _ _ p _ _ _ => p

theorem sortLex_nil : sortLex [] = [] := rfl

theorem sortLex_sorted (l : List (List Nat)) : List.Sorted StrLe (sortLex l) :=
  List.sorted_insertionSort StrLe l

theorem sortLex_perm (l : List (List Nat)) : (sortLex l).Perm l :=
  List.perm_insertionSort StrLe l

theorem sortLex_length (l : List (List Nat)) : (sortLex l).length = l.length :=
  (sortLex_perm l).length_eq

theorem keepLine_filesFound (tail : List Nat) :
    keepLine (str ("Files found in S2: ") ++ tail) = false := by
  have h : hasSub (str ("Files found")) (str ("Files found in S2: ") ++ tail) = true := rfl
  simp [keepLine, h]

/-- Parsing a LIST reply of a non-empty S2 directory recovers exactly the
file names: the "Files found in S2: n" header is filtered out and every
ordinary file name passes the filter. -/
theorem parse_s2_list (files : List (List Nat)) (hne : files ≠ [])
    (hok : ∀ f ∈ files, keepLine f = true) :
    get_files_from_server (.reply (s2_list_response files)) = files := by
  simp only [get_files_from_server, s2_list_response]
  rw [if_neg (by simp [List.isEmpty_iff, hne] : ¬ files.isEmpty = true)]
  rw [List.filter_cons, if_neg (by simp [keepLine_filesFound])]
  exact List.filter_eq_self.mpr hok

/-- Helper for C9: a remote source that fails to answer — connection
refused, no response, or its directory missing (the node's "ERROR:
Directory not found" reply) — contributes zero entries and a zero
per-source count, and the post-check assembly still returns the block
carrying the other sources' entries. -/
theorem dispfnames_failed_remote (cfiles : List (List Nat)) (r2 r3 r4 : SrcResult) (e : List Nat)
    (h : r2 = .unreachable ∨ r2 = .noResponse ∨
      r2 = .reply [str ("ERROR: Directory not found in S2")])
    (he : e ∈ get_files_from_server r3) :
    get_files_from_server r2 = [] ∧
    s1_handle_dispfnames cfiles r2 r3 r4 = s1_handle_dispfnames cfiles .unreachable r3 r4 ∧
    (s1_handle_dispfnames cfiles r2 r3 r4).pdfCount = 0 ∧
    s1_handle_dispfnames cfiles r2 r3 r4 ≠ .noFiles ∧
    e ∈ (s1_handle_dispfnames cfiles r2 r3 r4).entriesOf := by
  have h2 : get_files_from_server r2 = [] := by
    rcases h with h | h | h
    · subst h; rfl
    · subst h; rfl
    · subst h; decide
  have hmem : e ∈ sortLex (get_files_from_server r3) := by
    rw [(sortLex_perm (get_files_from_server r3)).mem_iff]
    exact he
  have hlen3 : 0 < (sortLex (get_files_from_server r3)).length :=
    List.length_pos.mpr (List.ne_nil_of_mem hmem)
  have aux : ∀ rx : SrcResult, get_files_from_server rx = [] →
      s1_handle_dispfnames cfiles rx r3 r4
        = .block ((sortLex (cfiles.filter (fun x => get_file_extension x == str (".c")))).length
              + (sortLex (get_files_from_server r3)).length
              + (sortLex (get_files_from_server r4)).length)
            (sortLex (cfiles.filter (fun x => get_file_extension x == str (".c")))).length
            0
            (sortLex (get_files_from_server r3)).length
            (sortLex (get_files_from_server r4)).length
            (sortLex (cfiles.filter (fun x => get_file_extension x == str (".c")))
              ++ sortLex (get_files_from_server r3)
              ++ sortLex (get_files_from_server r4)) := by
    intro rx hx
    simp only [s1_handle_dispfnames, hx, sortLex_nil, List.length_nil, Nat.add_zero,
      List.append_nil]
    rw [if_neg (by omega)]
  have key := aux r2 h2
  have key2 := aux .unreachable rfl
  refine ⟨h2, ?_, ?_, ?_, ?_⟩
  · rw [key, key2]
  · rw [key]
    rfl
  · rw [key]
    exact fun hcon => ListResp.noConfusion hcon
  · rw [key]
    simp only [ListResp.entriesOf]
    exact List.mem_append_left _ (List.mem_append_right _ hmem)

/-- C9 counterexample: with the local `$HOME/S1` shard directory
missing, the whole dispfnames command aborts with the "Error: Directory
not found in S1" reply (S1.c lines 1322-1328) and returns no source's
entries — even though S3 is reachable and holds a file that the
post-check assembly would have listed. -/
theorem C9_counterexample :
    s1_dispfnames_entry false [] .unreachable (.reply [str ("b.txt")]) .unreachable
      = .dirMissing ∧
    str ("b.txt") ∈ (s1_handle_dispfnames [] .unreachable (.reply [str ("b.txt")])
        .unreachable).entriesOf := by
  exact ⟨rfl, by decide⟩

/-- C9 (amended): with the local shard directory present, a remote
source that fails to answer — connection refused, no response, or its
directory missing on the node — contributes zero entries and a zero
per-source count, and the list command still returns the block carrying
the other sources' entries; a missing local shard directory, however,
aborts the whole command with the "Directory not found in S1" error,
returning no source's entries. -/
theorem C9_amended (cfiles : List (List Nat)) (r2 r3 r4 : SrcResult) (e : List Nat)
    (h : r2 = .unreachable ∨ r2 = .noResponse ∨
      r2 = .reply [str ("ERROR: Directory not found in S2")])
    (he : e ∈ get_files_from_server r3) :
    get_files_from_server r2 = [] ∧
    s1_dispfnames_entry true cfiles r2 r3 r4
      = s1_dispfnames_entry true cfiles .unreachable r3 r4 ∧
    (s1_handle_dispfnames cfiles r2 r3 r4).pdfCount = 0 ∧
    s1_dispfnames_entry true cfiles r2 r3 r4 ≠ .listed .noFiles ∧
    e ∈ (s1_handle_dispfnames cfiles r2 r3 r4).entriesOf ∧
    s1_dispfnames_entry false cfiles r2 r3 r4 = .dirMissing := by
  obtain ⟨h2, heq, hp, hnf, hmem⟩ := dispfnames_failed_remote cfiles r2 r3 r4 e h he
  have hl : ∀ a b c d, s1_dispfnames_entry true a b c d
      = .listed (s1_handle_dispfnames a b c d) := fun _ _ _ _ => rfl
  refine ⟨h2, ?_, hp, ?_, hmem, rfl⟩
  · rw [hl, hl, heq]
  · rw [hl]
    intro hcon
    exact hnf (DispOutcome.listed.inj hcon)

theorem C9_amended_witness :
    get_files_from_server (.reply [str ("ERROR: Directory not found in S2")]) = [] ∧
    s1_dispfnames_entry true [] (.reply [str ("ERROR: Directory not found in S2")])
        (.reply [str ("b.txt")]) .unreachable
      = s1_dispfnames_entry true [] .unreachable (.reply [str ("b.txt")]) .unreachable ∧
    (s1_handle_dispfnames [] (.reply [str ("ERROR: Directory not found in S2")])
        (.reply [str ("b.txt")]) .unreachable).pdfCount = 0 ∧
    s1_dispfnames_entry true [] (.reply [str ("ERROR: Directory not found in S2")])
        (.reply [str ("b.txt")]) .unreachable ≠ .listed .noFiles ∧
    str ("b.txt") ∈ (s1_handle_dispfnames [] (.reply [str ("ERROR: Directory not found in S2")])
        (.reply [str ("b.txt")]) .unreachable).entriesOf ∧
    s1_dispfnames_entry false [] (.reply [str ("ERROR: Directory not found in S2")])
        (.reply [str ("b.txt")]) .unreachable = .dirMissing :=
  C9_amended [] (.reply [str ("ERROR: Directory not found in S2")])
    (.reply [str ("b.txt")]) .unreachable (str ("b.txt"))
    (Or.inr (Or.inr rfl)) (by decide)

/-- C8 counterexample: with one stored `.c` file and an empty (but
reachable) S2 shard, the list block reports a `.pdf` count of 1 and
lists S2's textual reply "No .pdf files found in S2" as if it were a
file name — the response is not a summary line followed by one stored
filename per line. -/
theorem C8_counterexample :
    s1_handle_dispfnames [str ("a.c")] (.reply (s2_list_response [])) .unreachable .unreachable
      = .block 2 1 1 0 0 [str ("a.c"), str ("No .pdf files found in S2")] ∧
    s1_handle_dispfnames [str ("a.c")] (.reply (s2_list_response [])) .unreachable .unreachable
      ≠ .block 1 1 0 0 0 [str ("a.c")] := by
  refine ⟨by decide, by decide⟩

/-- C8 (amended): whenever every remote source holds at least one
matching file (and the file names are ordinary, i.e. survive S1's line
filter), the list command returns one block: the summary carries the
total and the four per-source counts, and the entries are exactly the
sources' file names, each source sorted lexicographically, concatenated
in the fixed order .c, .pdf, .txt, .zip.  Being a pure function of the
stored files, repeated calls return the same block.  (With an empty
remote source the node's textual reply is counted and listed as an
entry, as the counterexample shows.) -/
theorem C8_amended (localEntries files2 : List (List Nat)) (r3 r4 : SrcResult)
    (hne2 : files2 ≠ []) (hok2 : ∀ f ∈ files2, keepLine f = true) :
    get_files_from_server (.reply (s2_list_response files2)) = files2 ∧
    s1_handle_dispfnames localEntries (.reply (s2_list_response files2)) r3 r4
      = .block ((sortLex (localEntries.filter (fun x => get_file_extension x == str (".c")))).length
            + (sortLex files2).length + (sortLex (get_files_from_server r3)).length
            + (sortLex (get_files_from_server r4)).length)
          (sortLex (localEntries.filter (fun x => get_file_extension x == str (".c")))).length
          (sortLex files2).length
          (sortLex (get_files_from_server r3)).length
          (sortLex (get_files_from_server r4)).length
          (sortLex (localEntries.filter (fun x => get_file_extension x == str (".c")))
            ++ sortLex files2 ++ sortLex (get_files_from_server r3)
            ++ sortLex (get_files_from_server r4)) ∧
    List.Sorted StrLe (sortLex files2) ∧
    (sortLex files2).Perm files2 ∧
    (sortLex files2).length = files2.length := by
  have hparse := parse_s2_list files2 hne2 hok2
  refine ⟨hparse, ?_, sortLex_sorted files2, sortLex_perm files2, sortLex_length files2⟩
  simp only [s1_handle_dispfnames, hparse]
  rw [if_neg (by
    have hpos : 0 < (sortLex files2).length := by
      rw [sortLex_length]
      exact List.length_pos.mpr hne2
    omega)]

theorem C8_amended_witness :
    get_files_from_server (.reply (s2_list_response [str ("b.pdf")])) = [str ("b.pdf")] ∧
    s1_handle_dispfnames [str ("a.c")] (.reply (s2_list_response [str ("b.pdf")]))
        .unreachable .unreachable
      = .block ((sortLex ([str ("a.c")].filter
              (fun x => get_file_extension x == str (".c")))).length
            + (sortLex [str ("b.pdf")]).length
            + (sortLex (get_files_from_server .unreachable)).length
            + (sortLex (get_files_from_server .unreachable)).length)
          (sortLex ([str ("a.c")].filter (fun x => get_file_extension x == str (".c")))).length
          (sortLex [str ("b.pdf")]).length
          (sortLex (get_files_from_server .unreachable)).length
          (sortLex (get_files_from_server .unreachable)).length
          (sortLex ([str ("a.c")].filter (fun x => get_file_extension x == str (".c")))
            ++ sortLex [str ("b.pdf")] ++ sortLex (get_files_from_server .unreachable)
            ++ sortLex (get_files_from_server .unreachable)) ∧
    List.Sorted StrLe (sortLex [str ("b.pdf")]) ∧
    (sortLex [str ("b.pdf")]).Perm [str ("b.pdf")] ∧
    (sortLex [str ("b.pdf")]).length = [str ("b.pdf")].length :=
  C8_amended [str ("a.c")] [str ("b.pdf")] .unreachable .unreachable (by decide) (by decide)

/- ===== Extension and pipeline helper lemmas ===== -/

theorem lastDot_none (ys : List Nat) (h : ¬ 46 ∈ ys) : lastDotSuffix ys = none := by
  induction ys with
  | nil => rfl
  | cons a rest ih =>
    simp only [List.mem_cons, not_or] at h
    simp only [lastDotSuffix, ih h.2]
    rw [if_neg (fun he => h.1 he.symm)]

theorem lastDot_app (xs ys : List Nat) (h : ¬ 46 ∈ ys) :
    lastDotSuffix (xs ++ (46 :: ys)) = some (46 :: ys) := by
  induction xs with
  | nil =>
    simp [lastDotSuffix, lastDot_none ys h]
  | cons a rest ih =>
    have ih2 : lastDotSuffix (rest.append (46 :: ys)) = some (46 :: ys) := ih
    simp only [List.cons_append, lastDotSuffix, ih2]

theorem get_file_extension_app (pre tail : List Nat) (hpre : pre ≠ []) (h : ¬ 46 ∈ tail) :
    get_file_extension (pre ++ (46 :: tail)) = 46 :: tail := by
  cases pre with
  | nil => exact absurd rfl hpre
  | cons a rest =>
    simp only [List.cons_append, get_file_extension, lastDot_app rest tail h]

/-- First-read behaviour of the S2/S3 node on a well-formed frame from
`send_to_server`: the initial `recv` yields at most one 8191-byte
buffer, the handler resumes from the socket for the remainder, and the
file is stored intact. -/
theorem s2_entry_first_read (dest name content : List Nat)
    (hd0 : 0 < dest.length) (hd1 : dest.length < 1024)
    (hn0 : 0 < name.length) (hn1 : name.length < 256)
    (hsz : (content.length : Int) < 2 ^ 63) :
    s2_upload_entry ((send_to_server dest name content).take 8191)
      ((send_to_server dest name content).drop 8191) = .stored dest name content := by
  simp only [send_to_server]
  rw [take_min (uploadFrame dest name (content.length : Int) content) 8191,
      drop_min (uploadFrame dest name (content.length : Int) content) 8191]
  have hlen := uploadFrame_length dest name (content.length : Int) content
  have h := s2_decode dest name content (content.length : Int)
    (min 8191 (uploadFrame dest name (content.length : Int) content).length)
    hd0 hd1 hn0 hn1 (le_refl _) (by omega) hsz
    (Nat.le_min.mpr ⟨by omega, by rw [hlen]; omega⟩)
    (Nat.min_le_right _ _)
  rw [if_pos rfl] at h
  exact h

/-- First-read behaviour of S4 on a well-formed frame: one 16383-byte
initial buffer, remainder from the socket, file stored intact. -/
theorem s4_entry_first_read (dest name content : List Nat)
    (hd1 : 1 < dest.length) (hd2 : dest.length < 1024)
    (hpre : leadsWith (str ("~S1")) dest = false)
    (hn0 : 0 < name.length) (hn1 : name.length < 1024)
    (hext : lastDotSuffix name = some (str (".zip")))
    (hp0 : 0 < content.length) (hp1 : content.length ≤ 500 * 1024 * 1024) :
    handle_file_upload ((send_to_server dest name content).take 16383)
      ((send_to_server dest name content).drop 16383) = .stored dest name content := by
  rw [take_min (send_to_server dest name content) 16383,
      drop_min (send_to_server dest name content) 16383]
  have hlen : (send_to_server dest name content).length
      = 16 + dest.length + name.length + content.length :=
    uploadFrame_length dest name (content.length : Int) content
  exact s4_decode dest name content (min 16383 (send_to_server dest name content).length)
    hd1 hd2 hpre hn0 hn1 hext hp0 hp1
    (Nat.le_min.mpr ⟨by omega, by rw [hlen]; omega⟩)
    (Nat.min_le_right _ _)

/-- `downlf` of a `.c` file served from the coordinator's own store. -/
theorem download_local (p content clientPath : List Nat)
    (hsrv : get_server_for_file clientPath = 1)
    (hkey : p = shardDir 1 ++ clientPath.drop 3) :
    downloadPipeline ⟨some (p, content), none⟩ clientPath = some content := by
  simp only [downloadPipeline, hsrv, if_true]
  rw [if_pos hkey]

/-- `downlf` of a remote-shard file: the `GET_FILE` proxy path relays the
stored bytes when the node's absolute path matches. -/
theorem download_hit (n : Nat) (dest name content clientPath : List Nat)
    (hn : n = 2 ∨ n = 3 ∨ n = 4)
    (hsrv : get_server_for_file clientPath = (n : Int))
    (hkey : dest ++ [47] ++ name = shardDir n ++ clientPath.drop 3) :
    downloadPipeline ⟨none, some (dest, name, content)⟩ clientPath = some content := by
  have hne1 : ¬ ((n : Int) = 1) := by
    rcases hn with h | h | h <;> subst h <;> decide
  have hor : (n : Int) = 2 ∨ (n : Int) = 3 ∨ (n : Int) = 4 := by
    rcases hn with h | h | h <;> subst h <;> simp
  have hreq : (convert_path_for_server clientPath [83, 48 + n]).drop 3 = clientPath.drop 3 := rfl
  simp only [downloadPipeline, hsrv, Int.toNat_natCast]
  rw [if_neg hne1, if_pos hor]
  simp only [hreq, send_file_to_s1, lookupFile, if_pos hkey]
  simp only [forward_file_from_aux_server, Int.toNat_natCast, List.take_length]
  rw [if_neg (by omega : ¬ ((content.length : Int) = -1))]

/-- C1 counterexample: a size-0 `.zip` upload does not survive the round
trip.  S4 reads the zero size field, treats it as "size not in header",
tries to receive the size again from a stream that has ended, and drops
the upload without storing anything (its `file_size <= 0` validation
would reject it regardless); S1 has already unlinked its local copy
because its own sending loop completed; the subsequent `downlf` yields
the `-1` sentinel instead of the (empty) content. -/
theorem C1_counterexample :
    downloadPipeline (uploadPipeline (str ("~S1/d")) (str ("a.zip")) []) (str ("~S1/d/a.zip"))
      = none ∧
    (uploadPipeline (str ("~S1/d")) (str ("a.zip")) []).s1File = none ∧
    (uploadPipeline (str ("~S1/d")) (str ("a.zip")) []).nodeFile = none ∧
    downloadPipeline (uploadPipeline (str ("~S1/d")) (str ("a.zip")) []) (str ("~S1/d/a.zip"))
      ≠ some ([] : List Nat) := by
  refine ⟨by decide, by decide, by decide, by decide⟩

/-- C1 (amended): uploading one file through `uploadf` and downloading it
back through `downlf` by its coordinator-visible path returns
byte-identical content for every supported extension (`.c`, `.pdf`,
`.txt`, `.zip`) and every content — including sizes 0, 1 and above the
8192-byte buffer size — except that a `.zip` file must be non-empty (and
within S4's 500 MB cap): S4 drops size-0 uploads, as the counterexample
shows. -/
theorem C1_amended (clientDest stem content ext : List Nat)
    (hext : ext = str (".c") ∨ ext = str (".pdf") ∨ ext = str (".txt") ∨ ext = str (".zip"))
    (hd3 : 3 ≤ clientDest.length) (hdl : clientDest.length ≤ 1000)
    (hstem : stem ≠ [])
    (hname : (stem ++ ext).length < 256)
    (hsz : (content.length : Int) < 2 ^ 63)
    (hcap : ext = str (".zip") → content.length ≤ 500 * 1024 * 1024)
    (hzip : ext = str (".zip") → content ≠ []) :
    downloadPipeline (uploadPipeline clientDest (stem ++ ext) content)
      (clientDest ++ [47] ++ (stem ++ ext)) = some content := by
  have hstem1 : 0 < stem.length := List.length_pos.mpr hstem
  have hdropCP : ∀ name : List Nat, (clientDest ++ [47] ++ name).drop 3
      = clientDest.drop 3 ++ ([47] ++ name) := by
    intro name
    rw [List.append_assoc, drop_app_left clientDest _ 3 hd3]
  have hprefix_ne : clientDest ++ [47] ++ stem ≠ ([] : List Nat) := by
    intro hcon
    have hl := congrArg List.length hcon
    simp only [List.length_append, List.length_nil] at hl
    omega
  rcases hext with hc | hp | ht | hz
  · -- .c : stored and served by S1 itself
    subst hc
    have hext_eq : str (".c") = 46 :: [99] := rfl
    have hnex : get_file_extension (stem ++ str (".c")) = str (".c") := by
      rw [hext_eq]
      exact get_file_extension_app stem [99] hstem (by decide)
    have hpex : get_file_extension (clientDest ++ [47] ++ (stem ++ str (".c"))) = str (".c") := by
      have hassoc : clientDest ++ [47] ++ (stem ++ str (".c"))
          = (clientDest ++ [47] ++ stem) ++ str (".c") := by simp [List.append_assoc]
      rw [hassoc, hext_eq]
      exact get_file_extension_app _ [99] hprefix_ne (by decide)
    have hsrv : get_server_for_file (clientDest ++ [47] ++ (stem ++ str (".c"))) = 1 := by
      simp only [get_server_for_file, hpex]
      decide
    have hroute : uploadf_route (stem ++ str (".c")) = none := by
      simp only [uploadf_route, hnex]
      decide
    have hu : s1_upload_file (shardDir 1 ++ clientDest.drop 3) (stem ++ str (".c"))
        (content.length : Int) content true
        = ⟨some (shardDir 1 ++ clientDest.drop 3 ++ [47] ++ (stem ++ str (".c")), content),
            true, none⟩ := by
      simp only [s1_upload_file, hroute, Int.toNat_natCast, List.take_length]
      simp only [if_true]
    have hup : uploadPipeline clientDest (stem ++ str (".c")) content
        = ⟨some (shardDir 1 ++ clientDest.drop 3 ++ [47] ++ (stem ++ str (".c")), content),
            none⟩ := by
      simp only [uploadPipeline, hroute, hu]
    rw [hup]
    apply download_local _ _ _ hsrv
    rw [hdropCP]
    simp [List.append_assoc]
  · -- .pdf : forwarded to S2 and proxied back
    subst hp
    have hext_eq : str (".pdf") = 46 :: [112, 100, 102] := rfl
    have hnex : get_file_extension (stem ++ str (".pdf")) = str (".pdf") := by
      rw [hext_eq]
      exact get_file_extension_app stem [112, 100, 102] hstem (by decide)
    have hpex : get_file_extension (clientDest ++ [47] ++ (stem ++ str (".pdf")))
        = str (".pdf") := by
      have hassoc : clientDest ++ [47] ++ (stem ++ str (".pdf"))
          = (clientDest ++ [47] ++ stem) ++ str (".pdf") := by simp [List.append_assoc]
      rw [hassoc, hext_eq]
      exact get_file_extension_app _ [112, 100, 102] hprefix_ne (by decide)
    have hsrv : get_server_for_file (clientDest ++ [47] ++ (stem ++ str (".pdf"))) = 2 := by
      simp only [get_server_for_file, hpex]
      decide
    have hroute : uploadf_route (stem ++ str (".pdf")) = some 2 := by
      simp only [uploadf_route, hnex]
      decide
    have hnamelen : (stem ++ str (".pdf")).length = stem.length + 4 := by
      rw [List.length_append, hext_eq]
      rfl
    have hdlen : (uploadf_remote_dest 2 clientDest).length = 13 + (clientDest.length - 3) := by
      simp only [uploadf_remote_dest, List.length_append, List.length_drop]
      rw [show (shardDir 2).length = 13 from by decide]
    have hu : s1_upload_file (shardDir 1 ++ clientDest.drop 3) (stem ++ str (".pdf"))
        (content.length : Int) content true = ⟨none, true, some 2⟩ := by
      simp only [s1_upload_file, hroute, Int.toNat_natCast, List.take_length]
      simp only [if_true]
    have hstore := s2_entry_first_read (uploadf_remote_dest 2 clientDest)
      (stem ++ str (".pdf")) content (by omega) (by omega) (by omega) hname hsz
    have hup : uploadPipeline clientDest (stem ++ str (".pdf")) content
        = ⟨none, some (uploadf_remote_dest 2 clientDest, stem ++ str (".pdf"), content)⟩ := by
      simp only [uploadPipeline, hroute, hu]
      rw [if_neg (by decide : ¬ (2 = 4)), hstore]
      rfl
    rw [hup]
    apply download_hit 2 _ _ _ _ (Or.inl rfl) hsrv
    rw [hdropCP]
    simp [uploadf_remote_dest, List.append_assoc]
  · -- .txt : forwarded to S3 and proxied back
    subst ht
    have hext_eq : str (".txt") = 46 :: [116, 120, 116] := rfl
    have hnex : get_file_extension (stem ++ str (".txt")) = str (".txt") := by
      rw [hext_eq]
      exact get_file_extension_app stem [116, 120, 116] hstem (by decide)
    have hpex : get_file_extension (clientDest ++ [47] ++ (stem ++ str (".txt")))
        = str (".txt") := by
      have hassoc : clientDest ++ [47] ++ (stem ++ str (".txt"))
          = (clientDest ++ [47] ++ stem) ++ str (".txt") := by simp [List.append_assoc]
      rw [hassoc, hext_eq]
      exact get_file_extension_app _ [116, 120, 116] hprefix_ne (by decide)
    have hsrv : get_server_for_file (clientDest ++ [47] ++ (stem ++ str (".txt"))) = 3 := by
      simp only [get_server_for_file, hpex]
      decide
    have hroute : uploadf_route (stem ++ str (".txt")) = some 3 := by
      simp only [uploadf_route, hnex]
      decide
    have hnamelen : (stem ++ str (".txt")).length = stem.length + 4 := by
      rw [List.length_append, hext_eq]
      rfl
    have hdlen : (uploadf_remote_dest 3 clientDest).length = 13 + (clientDest.length - 3) := by
      simp only [uploadf_remote_dest, List.length_append, List.length_drop]
      rw [show (shardDir 3).length = 13 from by decide]
    have hu : s1_upload_file (shardDir 1 ++ clientDest.drop 3) (stem ++ str (".txt"))
        (content.length : Int) content true = ⟨none, true, some 3⟩ := by
      simp only [s1_upload_file, hroute, Int.toNat_natCast, List.take_length]
      simp only [if_true]
    have hstore := s2_entry_first_read (uploadf_remote_dest 3 clientDest)
      (stem ++ str (".txt")) content (by omega) (by omega) (by omega) hname hsz
    have hup : uploadPipeline clientDest (stem ++ str (".txt")) content
        = ⟨none, some (uploadf_remote_dest 3 clientDest, stem ++ str (".txt"), content)⟩ := by
      simp only [uploadPipeline, hroute, hu]
      rw [if_neg (by decide : ¬ (3 = 4)), hstore]
      rfl
    rw [hup]
    apply download_hit 3 _ _ _ _ (Or.inr (Or.inl rfl)) hsrv
    rw [hdropCP]
    simp [uploadf_remote_dest, List.append_assoc]
  · -- .zip : forwarded to S4 and proxied back
    subst hz
    have hext_eq : str (".zip") = 46 :: [122, 105, 112] := rfl
    have hnex : get_file_extension (stem ++ str (".zip")) = str (".zip") := by
      rw [hext_eq]
      exact get_file_extension_app stem [122, 105, 112] hstem (by decide)
    have hpex : get_file_extension (clientDest ++ [47] ++ (stem ++ str (".zip")))
        = str (".zip") := by
      have hassoc : clientDest ++ [47] ++ (stem ++ str (".zip"))
          = (clientDest ++ [47] ++ stem) ++ str (".zip") := by simp [List.append_assoc]
      rw [hassoc, hext_eq]
      exact get_file_extension_app _ [122, 105, 112] hprefix_ne (by decide)
    have hsrv : get_server_for_file (clientDest ++ [47] ++ (stem ++ str (".zip"))) = 4 := by
      simp only [get_server_for_file, hpex]
      decide
    have hroute : uploadf_route (stem ++ str (".zip")) = some 4 := by
      simp only [uploadf_route, hnex]
      decide
    have hnamelen : (stem ++ str (".zip")).length = stem.length + 4 := by
      rw [List.length_append, hext_eq]
      rfl
    have hdlen : (uploadf_remote_dest 4 clientDest).length = 13 + (clientDest.length - 3) := by
      simp only [uploadf_remote_dest, List.length_append, List.length_drop]
      rw [show (shardDir 4).length = 13 from by decide]
    have hldot : lastDotSuffix (stem ++ str (".zip")) = some (str (".zip")) := by
      rw [hext_eq]
      exact lastDot_app stem [122, 105, 112] (by decide)
    have hpre4 : leadsWith (str ("~S1")) (uploadf_remote_dest 4 clientDest) = false := rfl
    have hu : s1_upload_file (shardDir 1 ++ clientDest.drop 3) (stem ++ str (".zip"))
        (content.length : Int) content true = ⟨none, true, some 4⟩ := by
      simp only [s1_upload_file, hroute, Int.toNat_natCast, List.take_length]
      simp only [if_true]
    have hstore := s4_entry_first_read (uploadf_remote_dest 4 clientDest)
      (stem ++ str (".zip")) content (by omega) (by omega) hpre4 (by omega)
      (by omega) hldot (List.length_pos.mpr (hzip rfl)) (hcap rfl)
    have hup : uploadPipeline clientDest (stem ++ str (".zip")) content
        = ⟨none, some (uploadf_remote_dest 4 clientDest, stem ++ str (".zip"), content)⟩ := by
      simp only [uploadPipeline, hroute, hu, if_true]
      rw [hstore]
      rfl
    rw [hup]
    apply download_hit 4 _ _ _ _ (Or.inr (Or.inr rfl)) hsrv
    rw [hdropCP]
    simp [uploadf_remote_dest, List.append_assoc]

theorem C1_amended_witness :
    downloadPipeline (uploadPipeline (str ("~S1/d")) (str ("a") ++ str (".zip")) [7])
      (str ("~S1/d") ++ [47] ++ (str ("a") ++ str (".zip"))) = some [7] :=
  C1_amended (str ("~S1/d")) (str ("a")) [7] (str (".zip"))
    (Or.inr (Or.inr (Or.inr rfl))) (by decide) (by decide) (by decide) (by decide)
    (by decide) (fun _ => by decide) (fun _ => by decide)
